import Mathlib

/-!
Shallow embedding of the ZenUI style-resolution and caching engine.

The source functions modelled here are:
* theme/utils (theme utilities): useResponsiveValue, mergeStyleDefinitions,
  resolveStyleWithState, getColorFromPath, clearCacheIfNeeded, clearThemeCache;
* core-style mapper: isResponsiveValue, resolveResponsiveValue, resolveColorToken;
* utility class parser: createStyleObject (two revisions);
* theme/defaultTheme: breakpoints.

JavaScript values are modelled by the inductive `JsVal`; JavaScript objects are
association lists that keep insertion order, matching both object-literal
semantics and the JSON.stringify based cache keys of the source.
-/

/-- A JavaScript runtime value as used by the style engine: primitives,
null, undefined, arrays and plain objects (insertion-ordered field lists). -/
inductive JsVal where
  | str (s : String)
  | num (q : ℚ)
  | bool (b : Bool)
  | null
  | undef
  | arr (xs : List JsVal)
  | obj (fields : List (String × JsVal))

mutual

/-- Decidable structural equality for JavaScript values. -/
def JsVal.decEq : (a b : JsVal) → Decidable (a = b)
  | .str s, .str t =>
      if h : s = t then isTrue (h ▸ rfl)
      else isFalse (fun he => h (JsVal.str.inj he))
  | .num p, .num q =>
      if h : p = q then isTrue (h ▸ rfl)
      else isFalse (fun he => h (JsVal.num.inj he))
  | .bool p, .bool q =>
      if h : p = q then isTrue (h ▸ rfl)
      else isFalse (fun he => h (JsVal.bool.inj he))
  | .null, .null => isTrue rfl
  | .undef, .undef => isTrue rfl
  | .arr xs, .arr ys =>
      match JsVal.decEqList xs ys with
      | isTrue h => isTrue (h ▸ rfl)
      | isFalse h => isFalse (fun he => h (JsVal.arr.inj he))
  | .obj fs, .obj gs =>
      match JsVal.decEqFields fs gs with
      | isTrue h => isTrue (h ▸ rfl)
      | isFalse h => isFalse (fun he => h (JsVal.obj.inj he))
  | .str _, .num _ => isFalse (fun h => nomatch h)
  | .str _, .bool _ => isFalse (fun h => nomatch h)
  | .str _, .null => isFalse (fun h => nomatch h)
  | .str _, .undef => isFalse (fun h => nomatch h)
  | .str _, .arr _ => isFalse (fun h => nomatch h)
  | .str _, .obj _ => isFalse (fun h => nomatch h)
  | .num _, .str _ => isFalse (fun h => nomatch h)
  | .num _, .bool _ => isFalse (fun h => nomatch h)
  | .num _, .null => isFalse (fun h => nomatch h)
  | .num _, .undef => isFalse (fun h => nomatch h)
  | .num _, .arr _ => isFalse (fun h => nomatch h)
  | .num _, .obj _ => isFalse (fun h => nomatch h)
  | .bool _, .str _ => isFalse (fun h => nomatch h)
  | .bool _, .num _ => isFalse (fun h => nomatch h)
  | .bool _, .null => isFalse (fun h => nomatch h)
  | .bool _, .undef => isFalse (fun h => nomatch h)
  | .bool _, .arr _ => isFalse (fun h => nomatch h)
  | .bool _, .obj _ => isFalse (fun h => nomatch h)
  | .null, .str _ => isFalse (fun h => nomatch h)
  | .null, .num _ => isFalse (fun h => nomatch h)
  | .null, .bool _ => isFalse (fun h => nomatch h)
  | .null, .undef => isFalse (fun h => nomatch h)
  | .null, .arr _ => isFalse (fun h => nomatch h)
  | .null, .obj _ => isFalse (fun h => nomatch h)
  | .undef, .str _ => isFalse (fun h => nomatch h)
  | .undef, .num _ => isFalse (fun h => nomatch h)
  | .undef, .bool _ => isFalse (fun h => nomatch h)
  | .undef, .null => isFalse (fun h => nomatch h)
  | .undef, .arr _ => isFalse (fun h => nomatch h)
  | .undef, .obj _ => isFalse (fun h => nomatch h)
  | .arr _, .str _ => isFalse (fun h => nomatch h)
  | .arr _, .num _ => isFalse (fun h => nomatch h)
  | .arr _, .bool _ => isFalse (fun h => nomatch h)
  | .arr _, .null => isFalse (fun h => nomatch h)
  | .arr _, .undef => isFalse (fun h => nomatch h)
  | .arr _, .obj _ => isFalse (fun h => nomatch h)
  | .obj _, .str _ => isFalse (fun h => nomatch h)
  | .obj _, .num _ => isFalse (fun h => nomatch h)
  | .obj _, .bool _ => isFalse (fun h => nomatch h)
  | .obj _, .null => isFalse (fun h => nomatch h)
  | .obj _, .undef => isFalse (fun h => nomatch h)
  | .obj _, .arr _ => isFalse (fun h => nomatch h)

/-- Decidable equality for lists of JavaScript values. -/
def JsVal.decEqList : (a b : List JsVal) → Decidable (a = b)
  | [], [] => isTrue rfl
  | [], _ :: _ => isFalse (fun h => nomatch h)
  | _ :: _, [] => isFalse (fun h => nomatch h)
  | x :: xs, y :: ys =>
      match JsVal.decEq x y with
      | isFalse h1 => isFalse (fun h => h1 (List.cons.inj h).1)
      | isTrue h1 =>
        match JsVal.decEqList xs ys with
        | isTrue h2 => isTrue (by rw [h1, h2])
        | isFalse h2 => isFalse (fun h => h2 (List.cons.inj h).2)

/-- Decidable equality for JavaScript object field lists. -/
def JsVal.decEqFields : (a b : List (String × JsVal)) → Decidable (a = b)
  | [], [] => isTrue rfl
  | [], _ :: _ => isFalse (fun h => nomatch h)
  | _ :: _, [] => isFalse (fun h => nomatch h)
  | (k, v) :: xs, (k', v') :: ys =>
      if hk : k = k' then
        match JsVal.decEq v v' with
        | isFalse h1 => isFalse (fun h => by
            cases (List.cons.inj h).1; exact h1 rfl)
        | isTrue h1 =>
          match JsVal.decEqFields xs ys with
          | isTrue h2 => isTrue (by rw [hk, h1, h2])
          | isFalse h2 => isFalse (fun h => h2 (List.cons.inj h).2)
      else isFalse (fun h => by
        have := (List.cons.inj h).1
        exact hk (congrArg Prod.fst this))

end

instance : DecidableEq JsVal := JsVal.decEq

namespace JsVal

/-- JavaScript truthiness: false, 0, empty string, null and undefined are
falsy; every object and array is truthy. -/
def truthy : JsVal → Bool
  | .str s => !(s = "")
  | .num q => !(q = 0)
  | .bool b => b
  | .null => false
  | .undef => false
  | .arr _ => true
  | .obj _ => true

end JsVal

/-- Field lookup on a JavaScript object: the value at the first occurrence of
the key, or `none` when the key is absent. -/
def getField (fields : List (String × JsVal)) (k : String) : Option JsVal :=
  (fields.find? (fun kv => kv.1 = k)).map (fun kv => kv.2)

/-- Key-presence test, the `in` operator on objects (an explicitly
undefined field still counts as present). -/
def hasField (fields : List (String × JsVal)) (k : String) : Bool :=
  (fields.find? (fun kv => kv.1 = k)).isSome

/-- Lookup modelling `o[k] !== undefined`: `some v` only when the key is
present with a value other than undefined. -/
def defGet (fields : List (String × JsVal)) (k : String) : Option JsVal :=
  match getField fields k with
  | some .undef => none
  | some v => some v
  | none => none

/-- Property assignment `o[k] = v`: overwrites in place when the key exists
(keeping its position, as JavaScript objects do), else appends. -/
def setField : List (String × JsVal) → String → JsVal → List (String × JsVal)
  | [], k, v => [(k, v)]
  | (k', v') :: rest, k, v =>
      if k' = k then (k, v) :: rest else (k', v') :: setField rest k v

/-- Sequential assignment of all fields of `upd` onto `base`, the effect of
`Object.assign(base, upd)` and of spreading `upd` after `base`. -/
def objAssign (base upd : List (String × JsVal)) : List (String × JsVal) :=
  upd.foldl (fun acc kv => setField acc kv.1 kv.2) base

/-- The own enumerable entries produced by spreading a value into an object
literal: objects give their fields, strings and arrays give index-keyed
entries, primitives, null and undefined give nothing. -/
def spreadEntries : JsVal → List (String × JsVal)
  | .obj fields => fields
  | .str s => (List.range s.length).map
      (fun i => (toString i, .str (String.mk [s.data.getD i ' '])))
  | .arr xs => (List.range xs.length).map
      (fun i => (toString i, xs.getD i .undef))
  | _ => []

/-- Split a character list at every occurrence of a separator satisfying
`p`; adjacent separators produce empty groups, as the JavaScript split with
a single-character pattern does. -/
def splitCharsBy (p : Char → Bool) : List Char → List (List Char)
  | [] => [[]]
  | ch :: rest =>
      let r := splitCharsBy p rest
      if p ch then [] :: r
      else
        match r with
        | [] => [[ch]]
        | g :: gs => (ch :: g) :: gs

/-- The JavaScript `s.split(c)` for a one-character separator. -/
def splitOnChar (c : Char) (s : String) : List String :=
  (splitCharsBy (fun ch => ch = c) s.data).map String.mk

/-- The JavaScript `s.startsWith(pre)`. -/
def strStartsWith (s pre : String) : Bool :=
  pre.data.isPrefixOf s.data

/-- The JavaScript `s.includes(c)` for one character. -/
def strContainsChar (s : String) (c : Char) : Bool :=
  s.data.contains c

/-- Parse a nonempty all-digit string as a natural number. -/
def digitsToNat? (cs : List Char) : Option ℕ :=
  if cs ≠ [] ∧ cs.all (fun c => c.isDigit)
  then some (cs.foldl (fun n c => 10 * n + (c.toNat - 48)) 0)
  else none

/-- Parse a string as a canonical natural numeral. -/
def strToNat? (s : String) : Option ℕ := digitsToNat? s.data

/-- The object literal `{ ...a, ...b }`. -/
def jsSpread2 (a b : JsVal) : JsVal :=
  .obj (objAssign (spreadEntries a) (spreadEntries b))

/-- Property read `v[k]` returning undefined for missing keys and for
non-object receivers (string indexing is modelled for in-range indices). -/
def jsGet : JsVal → String → Option JsVal
  | .obj fields, k => getField fields k
  | _, _ => none

/-! ### Breakpoints and the responsive resolver (theme utilities) -/

/-- The default breakpoint table of theme/defaultTheme, in declaration
order (the order Object.entries observes). -/
def defaultBreakpoints : List (String × ℚ) :=
  [("base", 0), ("sm", 480), ("md", 768), ("lg", 992), ("xl", 1200), ("2xl", 1536)]

/-- Stable insertion of an entry into a width-descending list, placing the
new entry before the first entry whose width is not larger; together with
`sortByWidthDesc` this models the stable JavaScript sort with comparator
(a, b) => b - a on Object.entries of the breakpoint table. -/
def insertDesc (x : String × ℚ) : List (String × ℚ) → List (String × ℚ)
  | [] => [x]
  | y :: ys => if y.2 ≤ x.2 then x :: y :: ys else y :: insertDesc x ys

/-- Sort breakpoint entries by descending minimum width (stable). -/
def sortByWidthDesc (l : List (String × ℚ)) : List (String × ℚ) :=
  l.foldr insertDesc []

/-- The responsive-resolution computation of useResponsiveValue (and of the
identical local resolver in createStyleResolver): non-objects are returned
unchanged; objects are searched against the breakpoint table in descending
width order for the first entry whose minimum width is at most the current
width and whose key holds a defined value; otherwise the result is the
value of the base property, undefined when absent. -/
def resolveResponsive (table : List (String × ℚ)) (width : ℚ) : JsVal → JsVal
  | .obj fields =>
      match (sortByWidthDesc table).find?
          (fun e => decide (e.2 ≤ width) && (defGet fields e.1).isSome) with
      | some e => (defGet fields e.1).getD .undef
      | none => (getField fields "base").getD .undef
  | v => v

/-! ### The core-style responsive resolver (core-style mapper) -/

/-- The fixed breakpoint name order of the core-style mapper. -/
def breakpointOrder : List String := ["base", "sm", "md", "lg", "xl", "2xl"]

/-- isResponsiveValue: a truthy object carrying at least one breakpoint
key (base, sm, md, lg, xl, 2xl). -/
def isResponsiveValue : JsVal → Bool
  | .obj fields => breakpointOrder.any (fun bp => hasField fields bp)
  | _ => false

/-- The nullish-coalescing operator a ?? b. -/
def jsNullish (a b : JsVal) : JsVal :=
  match a with
  | .null => b
  | .undef => b
  | v => v

/-- resolveResponsiveValue of the core-style mapper: walk from the
requested breakpoint down to base and return the first value that is not
undefined; otherwise fall back to base ?? the first declared entry. -/
def resolveResponsiveValue (value : JsVal) (bp : String) : JsVal :=
  if isResponsiveValue value then
    match value with
    | .obj fields =>
        let scan := if breakpointOrder.contains bp
          then (breakpointOrder.take (breakpointOrder.indexOf bp + 1)).reverse
          else []
        match scan.find? (fun b => (defGet fields b).isSome) with
        | some b => (defGet fields b).getD .undef
        | none =>
            jsNullish ((getField fields "base").getD .undef)
              ((fields.head?.map (fun kv => kv.2)).getD .undef)
    | v => v
  else value

/-! ### Component state and pseudo-state resolution (theme utilities) -/

/-- Interaction state flags of a component; absent flags are falsy, so
booleans model them exactly. -/
structure ComponentState where
  isHovered : Bool := false
  isFocused : Bool := false
  isPressed : Bool := false
  isSelected : Bool := false
  isActive : Bool := false
  isChecked : Bool := false
  isInvalid : Bool := false
  isDisabled : Bool := false
  isLoading : Bool := false
  isReadOnly : Bool := false
  deriving DecidableEq

/-- The fixed pseudo-state priority list of resolveStyleWithState, in
source order: hover, focus, pressed, selected, active, checked, invalid,
disabled, loading, readOnly. -/
def pseudoEntries (state : ComponentState) : List (Bool × String) :=
  [(state.isHovered, "_hover"),
   (state.isFocused, "_focus"),
   (state.isPressed, "_pressed"),
   (state.isSelected, "_selected"),
   (state.isActive, "_active"),
   (state.isChecked, "_checked"),
   (state.isInvalid, "_invalid"),
   (state.isDisabled, "_disabled"),
   (state.isLoading, "_loading"),
   (state.isReadOnly, "_readOnly")]

/-- The pseudo-state keys consulted by resolveStyleWithState. -/
def pseudoKeys : List String :=
  ["_hover", "_focus", "_pressed", "_selected", "_active",
   "_checked", "_invalid", "_disabled", "_loading", "_readOnly"]

/-- The cache-miss computation of resolveStyleWithState: resolve the base
style responsively, then overlay each applicable pseudo-state style (in
priority order) by spreading its responsive resolution on top. -/
def resolveStyleWithStateCore (style : JsVal) (state : ComponentState)
    (resolveResp : JsVal → JsVal) : JsVal :=
  (pseudoEntries state).foldl
    (fun acc entry =>
      match style with
      | .obj fields =>
          if entry.1 && hasField fields entry.2 then
            let pseudoStyle := (getField fields entry.2).getD .undef
            if pseudoStyle.truthy then jsSpread2 acc (resolveResp pseudoStyle)
            else acc
          else acc
      | _ => acc)
    (resolveResp style)

/-! ### Style definitions and the merge engine (theme utilities) -/

/-- A style definition: one optional style value per element slot. -/
structure StyleDef where
  container : JsVal := .undef
  text : JsVal := .undef
  icon : JsVal := .undef
  image : JsVal := .undef
  deriving DecidableEq

/-- One slot step of mergeStyleDefinitions: a truthy slot value is spread
onto the accumulator, a falsy one is skipped. -/
def mergeSlot (acc : List (String × JsVal)) (v : JsVal) : List (String × JsVal) :=
  if v.truthy then objAssign acc (spreadEntries v) else acc

/-- Accumulator for the four slots of mergeStyleDefinitions. -/
structure MergeAcc where
  container : List (String × JsVal) := []
  text : List (String × JsVal) := []
  icon : List (String × JsVal) := []
  image : List (String × JsVal) := []

/-- One layer step of mergeStyleDefinitions: skip absent layers, merge each
truthy slot of a present layer. -/
def mergeStep (acc : MergeAcc) : Option StyleDef → MergeAcc
  | none => acc
  | some d =>
      { container := mergeSlot acc.container d.container,
        text := mergeSlot acc.text d.text,
        icon := mergeSlot acc.icon d.icon,
        image := mergeSlot acc.image d.image }

/-- A slot result of mergeStyleDefinitions: the accumulated mapping when it
has at least one key, undefined otherwise. -/
def slotResult (acc : List (String × JsVal)) : JsVal :=
  if acc = [] then .undef else .obj acc

/-- The cache-miss computation of mergeStyleDefinitions: fold the layers
into four per-slot accumulators, then turn empty accumulators into
undefined slots. -/
def mergeStyleDefinitionsPure (styles : List (Option StyleDef)) : StyleDef :=
  let r := styles.foldl mergeStep {}
  { container := slotResult r.container,
    text := slotResult r.text,
    icon := slotResult r.icon,
    image := slotResult r.image }

/-! ### The theme cache -/

/-- Cache size limit (CACHE_SIZE_LIMIT). -/
def CACHE_SIZE_LIMIT : ℕ := 1000

/-- Generic lookup in a cache table (Map.get). -/
def mapGet {K V : Type} [DecidableEq K] (m : List (K × V)) (k : K) : Option V :=
  (m.find? (fun kv => kv.1 = k)).map (fun kv => kv.2)

/-- Generic insertion into a cache table (Map.set): updates an existing key
in place, otherwise appends. -/
def mapSet {K V : Type} [DecidableEq K] : List (K × V) → K → V → List (K × V)
  | [], k, v => [(k, v)]
  | (k', v') :: rest, k, v =>
      if k' = k then (k, v) :: rest else (k', v') :: mapSet rest k v

/-- clearCacheIfNeeded: clear the whole table when its size exceeds the
limit, otherwise leave it untouched. -/
def clearCacheIfNeeded {K V : Type} (m : List (K × V)) : List (K × V) :=
  if m.length > CACHE_SIZE_LIMIT then [] else m

/-- The three independent cache tables of the theme cache. Keys model the
JSON.stringify cache keys: on the value domain used here (no undefined
fields, no duplicate keys) stringification is injective, so the inputs
themselves serve as keys. -/
structure ThemeCache where
  responsiveValues : List ((JsVal × ℚ) × JsVal) := []
  resolvedStyles : List (List (Option StyleDef) × StyleDef) := []
  computedStyles : List ((JsVal × ComponentState) × JsVal) := []

/-- The empty theme cache (module load state). -/
def emptyThemeCache : ThemeCache := {}

/-- clearThemeCache: clear all three tables. -/
def clearThemeCache (_c : ThemeCache) : ThemeCache := {}

/-- useResponsiveValue with its cache: non-objects bypass the cache; a hit
returns the stored value; on a breakpoint-loop hit the table is
capacity-checked and the result stored; on the base fallback the result is
stored without a capacity check. -/
def useResponsiveValue (width : ℚ) (value : JsVal) (c : ThemeCache) :
    JsVal × ThemeCache :=
  match value with
  | .obj fields =>
      let key := (JsVal.obj fields, width)
      match mapGet c.responsiveValues key with
      | some cached => (cached, c)
      | none =>
          match (sortByWidthDesc defaultBreakpoints).find?
              (fun e => decide (e.2 ≤ width) && (defGet fields e.1).isSome) with
          | some e =>
              let resolvedValue := (defGet fields e.1).getD .undef
              (resolvedValue,
               { c with responsiveValues :=
                  mapSet (clearCacheIfNeeded c.responsiveValues) key resolvedValue })
          | none =>
              let fallbackValue := (getField fields "base").getD .undef
              (fallbackValue,
               { c with responsiveValues := mapSet c.responsiveValues key fallbackValue })
  | v => (v, c)

/-- mergeStyleDefinitions with its cache (keyed by the layer list). -/
def mergeStyleDefinitions (styles : List (Option StyleDef)) (c : ThemeCache) :
    StyleDef × ThemeCache :=
  match mapGet c.resolvedStyles styles with
  | some cached => (cached, c)
  | none =>
      let result := mergeStyleDefinitionsPure styles
      (result,
       { c with resolvedStyles :=
          mapSet (clearCacheIfNeeded c.resolvedStyles) styles result })

/-- resolveStyleWithState with its cache. The cache key is the pair of
style and state only; the responsive resolver is not part of the key. -/
def resolveStyleWithState (style : JsVal) (state : ComponentState)
    (resolveResp : JsVal → JsVal) (c : ThemeCache) : JsVal × ThemeCache :=
  if !style.truthy then (.undef, c)
  else
    let key := (style, state)
    match mapGet c.computedStyles key with
    | some cached => (cached, c)
    | none =>
        let resolvedStyle := resolveStyleWithStateCore style state resolveResp
        (resolvedStyle,
         { c with computedStyles :=
            mapSet (clearCacheIfNeeded c.computedStyles) key resolvedStyle })

/-! ### Color token resolution -/

/-- Property read used by the dot-path walkers: objects by key, strings and
arrays by canonical numeric index, everything else (including null and
undefined through optional chaining) gives undefined. -/
def jsIndex : JsVal → String → JsVal
  | .obj fields, k => (getField fields k).getD .undef
  | .str s, k =>
      match strToNat? k with
      | some i =>
          if toString i = k ∧ i < s.data.length
          then .str (String.mk [s.data.getD i ' ']) else .undef
      | none => .undef
  | .arr xs, k =>
      match strToNat? k with
      | some i => if toString i = k then xs.getD i .undef else .undef
      | none => .undef
  | _, _ => (.undef : JsVal)

/-- The logical-or fallback a || b. -/
def jsOr (a b : JsVal) : JsVal := if a.truthy then a else b

/-- getColorFromPath walk: follow the dot-separated keys through the colors
tree, answering transparent as soon as a step is undefined; a final
non-string value also collapses to transparent. -/
def getColorFromPathGo : JsVal → List String → String
  | v, [] => match v with | .str s => s | _ => "transparent"
  | v, k :: rest =>
      let v2 := jsIndex v k
      match v2 with
      | .undef => "transparent"
      | _ => getColorFromPathGo v2 rest

/-- getColorFromPath of the theme utilities, applied to the colors table of
a theme. -/
def getColorFromPath (colors : JsVal) (path : String) : String :=
  getColorFromPathGo colors (splitOnChar '.' path)

/-- resolveColorToken of the core-style mapper, over a colors token table:
direct color literals pass through; dotted paths read group and shade with
a logical-or fallback to the token itself; plain names read the table with
the same fallback. -/
def resolveColorToken (colors : List (String × JsVal)) (tok : String) : JsVal :=
  if strStartsWith tok "#" || strStartsWith tok "rgb" || strStartsWith tok "hsl"
      || tok = "transparent" then .str tok
  else if strContainsChar tok '.' then
    let parts := splitOnChar '.' tok
    let colorGroup := parts.getD 0 ""
    let shade := parts.getD 1 ""
    let group := (getField colors colorGroup).getD .undef
    jsOr (jsIndex group shade) (.str tok)
  else jsOr ((getField colors tok).getD .undef) (.str tok)

/-! ### The utility class parser (createStyleObject, two revisions) -/

/-- The token tables imported by the class parser (colors, spacing,
fontSize, borderRadius, shadows), each a JavaScript object. -/
structure TokenStore where
  colors : List (String × JsVal) := []
  spacing : List (String × JsVal) := []
  fontSize : List (String × JsVal) := []
  borderRadius : List (String × JsVal) := []
  shadows : List (String × JsVal) := []

/-- Plain table read `table[key]`, undefined when absent. -/
def storeGet (tbl : List (String × JsVal)) (k : String) : JsVal :=
  ((getField tbl k).getD .undef : JsVal)

/-- Apply a handler when a pattern matched, otherwise leave the styles
unchanged (an if-block guarded by a regex match). -/
def applyMatched {α : Type} (m : Option α)
    (f : α → List (String × JsVal) → List (String × JsVal))
    (s : List (String × JsVal)) : List (String × JsVal) :=
  match m with
  | some a => f a s
  | none => s

/-- Apply a handler under a boolean guard (an if-block guarded by an exact
class comparison). -/
def applyIf (b : Bool)
    (f : List (String × JsVal) → List (String × JsVal))
    (s : List (String × JsVal)) : List (String × JsVal) :=
  if b then f s else s

/-- ASCII letter or digit, the character class of the color-name captures. -/
def isAsciiAlnum (c : Char) : Bool := c.isAlpha || c.isDigit

/-- Lowercase ASCII letter or digit, the character class of the named
spacing captures of the later parser revision. -/
def isLowerAlnum (c : Char) : Bool := c.isLower || c.isDigit

/-- The directional suffix characters of the spacing patterns. -/
def dirChars : List Char := ['t', 'r', 'b', 'l', 'x', 'y']

/-- Match a spacing class against lead([trblxy])?-(tail), returning the
optional direction and the tail characters; the per-revision tail
condition is applied by the callers. -/
def matchSpacingShape (lead : Char) (cls : String) :
    Option (Option Char × List Char) :=
  match cls.data with
  | c :: d :: '-' :: tail =>
      if c = lead ∧ d ∈ dirChars then some (some d, tail)
      else if c = lead ∧ d = '-' then some (none, '-' :: tail)
      else none
  | c :: '-' :: tail => if c = lead then some (none, tail) else none
  | _ => none

/-- The numeric spacing pattern of the first parser revision:
lead([trblxy])?-(digits). -/
def matchSpacingNum (lead : Char) (cls : String) : Option (Option Char × ℕ) :=
  match matchSpacingShape lead cls with
  | some (dir, tail) => (digitsToNat? tail).map (fun n => (dir, n))
  | none => none

/-- The spacing pattern of the later parser revision:
lead([trblxy])?-([a-z0-9]+). -/
def matchSpacingRaw (lead : Char) (cls : String) : Option (Option Char × String) :=
  match matchSpacingShape lead cls with
  | some (dir, tail) =>
      if tail ≠ [] ∧ tail.all isLowerAlnum then some (dir, String.mk tail)
      else none
  | none => none

/-- The color pattern pre([a-zA-Z0-9]+)(-(digits))?, applied after a
literal prefix such as bg- or text-. -/
def matchColorToken (pre : String) (cls : String) :
    Option (String × Option String) :=
  if strStartsWith cls pre then
    match splitCharsBy (fun ch => ch = '-') (cls.data.drop pre.data.length) with
    | [name] =>
        if name ≠ [] ∧ name.all isAsciiAlnum then some (String.mk name, none)
        else none
    | [name, shade] =>
        if name ≠ [] ∧ name.all isAsciiAlnum ∧ shade ≠ [] ∧
            shade.all (fun c => c.isDigit)
        then some (String.mk name, some (String.mk shade))
        else none
    | _ => none
  else none

/-- The flattened color pattern of the later parser revision: a letters-only
name immediately followed by a two-or-three digit shade. -/
def matchFlatColor (pre : String) (cls : String) : Option String :=
  if strStartsWith cls pre then
    let rest := cls.data.drop pre.data.length
    let letters := rest.takeWhile (fun c => c.isAlpha)
    let digits := rest.drop letters.length
    if letters ≠ [] ∧ digits.all (fun c => c.isDigit) ∧
        2 ≤ digits.length ∧ digits.length ≤ 3
    then some (String.mk (letters ++ digits))
    else none
  else none

/-- Match a literal prefix followed by one name of a fixed keyword list,
for the rounded-, shadow- and text-size patterns. -/
def matchSuffixIn (pre : String) (names : List String) (cls : String) :
    Option String :=
  if strStartsWith cls pre then
    let tail := String.mk (cls.data.drop pre.data.length)
    if names.contains tail then some tail else none
  else none

/-- Match pre(digits), for the numeric w-, h-, gap- and opacity- patterns. -/
def matchNumArg (pre : String) (cls : String) : Option ℕ :=
  if strStartsWith cls pre then digitsToNat? (cls.data.drop pre.data.length)
  else none

/-- Match pre([a-z0-9]+), for the w-, h- and gap- patterns of the later
parser revision. -/
def matchRawArg (pre : String) (cls : String) : Option String :=
  if strStartsWith cls pre then
    let tail := cls.data.drop pre.data.length
    if tail ≠ [] ∧ tail.all isLowerAlnum then some (String.mk tail) else none
  else none

/-- The property written by a directional spacing class. -/
def spacingProp (base : String) : Option Char → String
  | none => base
  | some 'x' => base ++ "Horizontal"
  | some 'y' => base ++ "Vertical"
  | some 't' => base ++ "Top"
  | some 'r' => base ++ "Right"
  | some 'b' => base ++ "Bottom"
  | some 'l' => base ++ "Left"
  | some _ => base

/-- Own enumerable key list of a value (Object.keys). -/
def objKeys : JsVal → List String
  | .obj fields => fields.map Prod.fst
  | .str s => (List.range s.length).map toString
  | .arr xs => (List.range xs.length).map toString
  | _ => []

/-- The shared color-assignment body of the bg-, text- and border- blocks:
with a shade present and a truthy group holding a truthy shade entry,
assign that entry; otherwise with a truthy group assign its 500 entry or,
failing that, its first declared entry. -/
def colorAssign (colors : List (String × JsVal)) (prop : String)
    (key : String) (shade : Option String)
    (styles : List (String × JsVal)) : List (String × JsVal) :=
  let colorGroup := storeGet colors key
  let defaulted :=
    jsNullish (jsIndex colorGroup "500")
      (jsIndex colorGroup ((objKeys colorGroup).getD 0 "undefined"))
  match shade with
  | some sh =>
      if colorGroup.truthy ∧ (jsIndex colorGroup sh).truthy then
        setField styles prop (jsIndex colorGroup sh)
      else if colorGroup.truthy then setField styles prop defaulted
      else styles
  | none =>
      if colorGroup.truthy then setField styles prop defaulted
      else styles

/-- The rounded keyword table shared by both parser revisions. -/
def roundedNames : List String := ["sm", "md", "lg", "xl", "2xl", "3xl", "full"]

/-- The shadow keyword table shared by both parser revisions. -/
def shadowNames : List String := ["sm", "base", "md", "lg", "xl", "2xl"]

/-- The text-size keyword table shared by both parser revisions. -/
def textSizeNames : List String :=
  ["xs", "sm", "base", "lg", "xl", "2xl", "3xl", "4xl", "5xl"]

/-- The numeric spacing block of the first revision:
spacing[val] with fallback val times four. -/
def spacingBlockNum (store : TokenStore) (lead : Char) (prop : String)
    (cls : String) (styles : List (String × JsVal)) : List (String × JsVal) :=
  applyMatched (matchSpacingNum lead cls)
    (fun dv s =>
      let size := jsNullish (storeGet store.spacing (toString dv.2))
        (.num ((dv.2 : ℚ) * 4))
      setField s (spacingProp prop dv.1) size)
    styles

/-- The spacing block of the later revision: numeric arguments as in the
first revision, named arguments read the spacing table directly. -/
def spacingBlockRaw (store : TokenStore) (lead : Char) (prop : String)
    (cls : String) (styles : List (String × JsVal)) : List (String × JsVal) :=
  applyMatched (matchSpacingRaw lead cls)
    (fun dr s =>
      let size :=
        match strToNat? dr.2 with
        | some n => jsNullish (storeGet store.spacing (toString n))
            (.num ((n : ℚ) * 4))
        | none => storeGet store.spacing dr.2
      setField s (spacingProp prop dr.1) size)
    styles

/-- The flat-color else-branch of the later revision. -/
def flatColorBlock (store : TokenStore) (prop : String) (flatKey : String)
    (styles : List (String × JsVal)) : List (String × JsVal) :=
  if (storeGet store.colors flatKey).truthy then
    setField styles prop (storeGet store.colors flatKey)
  else styles

/-- The text block body shared by both revisions: color assignment by
family and shade, then the font-size shorthand on the same key. -/
def textBlockBody (store : TokenStore) (key : String) (shade : Option String)
    (styles : List (String × JsVal)) : List (String × JsVal) :=
  let s2 := colorAssign store.colors "color" key shade styles
  if (storeGet store.fontSize key).truthy then
    setField s2 "fontSize" (storeGet store.fontSize key)
  else s2

/-- The rounded block: bare rounded uses the base radius, rounded-N the
named radius (assigning even when the radius token is absent). -/
def roundedBlock (store : TokenStore) (cls : String)
    (styles : List (String × JsVal)) : List (String × JsVal) :=
  if cls = "rounded" then
    setField styles "borderRadius" (storeGet store.borderRadius "base")
  else
    applyMatched (matchSuffixIn "rounded-" roundedNames cls)
      (fun sz s => setField s "borderRadius" (storeGet store.borderRadius sz))
      styles

/-- The shadow block: a truthy shadow token is object-assigned onto the
styles. -/
def shadowBlock (store : TokenStore) (cls : String)
    (styles : List (String × JsVal)) : List (String × JsVal) :=
  applyMatched
    (if cls = "shadow" then some "base"
     else matchSuffixIn "shadow-" shadowNames cls)
    (fun sz s =>
      let tok := storeGet store.shadows sz
      if tok.truthy then objAssign s (spreadEntries tok) else s)
    styles

/-- The flex and alignment keyword blocks, identical in both revisions. -/
def keywordBlocks (cls : String) (styles : List (String × JsVal)) :
    List (String × JsVal) :=
  let s := styles
  let s := applyIf (cls = "flex") (fun st => setField st "display" (.str "flex")) s
  let s := applyIf (cls = "flex-row") (fun st => setField st "flexDirection" (.str "row")) s
  let s := applyIf (cls = "flex-col" ∨ cls = "flex-column")
    (fun st => setField st "flexDirection" (.str "column")) s
  let s := applyIf (cls = "items-center") (fun st => setField st "alignItems" (.str "center")) s
  let s := applyIf (cls = "justify-center") (fun st => setField st "justifyContent" (.str "center")) s
  let s := applyIf (cls = "self-center") (fun st => setField st "alignSelf" (.str "center")) s
  let s := applyIf (cls = "justify-start") (fun st => setField st "justifyContent" (.str "flex-start")) s
  let s := applyIf (cls = "justify-end") (fun st => setField st "justifyContent" (.str "flex-end")) s
  let s := applyIf (cls = "justify-between") (fun st => setField st "justifyContent" (.str "space-between")) s
  let s := applyIf (cls = "justify-around") (fun st => setField st "justifyContent" (.str "space-around")) s
  let s := applyIf (cls = "items-start") (fun st => setField st "alignItems" (.str "flex-start")) s
  let s := applyIf (cls = "items-end") (fun st => setField st "alignItems" (.str "flex-end")) s
  s

/-- The text-alignment and font-weight keyword blocks, identical in both
revisions. -/
def lateKeywordBlocks (cls : String) (styles : List (String × JsVal)) :
    List (String × JsVal) :=
  let s := styles
  let s := applyIf (cls = "text-center") (fun st => setField st "textAlign" (.str "center")) s
  let s := applyIf (cls = "text-left") (fun st => setField st "textAlign" (.str "left")) s
  let s := applyIf (cls = "text-right") (fun st => setField st "textAlign" (.str "right")) s
  let s := applyIf (cls = "font-thin") (fun st => setField st "fontWeight" (.str "100")) s
  let s := applyIf (cls = "font-light") (fun st => setField st "fontWeight" (.str "300")) s
  let s := applyIf (cls = "font-normal") (fun st => setField st "fontWeight" (.str "400")) s
  let s := applyIf (cls = "font-medium") (fun st => setField st "fontWeight" (.str "500")) s
  let s := applyIf (cls = "font-semibold") (fun st => setField st "fontWeight" (.str "600")) s
  let s := applyIf (cls = "font-bold") (fun st => setField st "fontWeight" (.str "700")) s
  s

/-- The trailing blocks shared by both revisions: full width and height,
text transform, opacity percentage. -/
def trailingBlocks (cls : String) (styles : List (String × JsVal)) :
    List (String × JsVal) :=
  let s := styles
  let s := applyIf (cls = "w-full") (fun st => setField st "width" (.str "100%")) s
  let s := applyIf (cls = "h-full") (fun st => setField st "height" (.str "100%")) s
  let s := applyIf (cls = "uppercase") (fun st => setField st "textTransform" (.str "uppercase")) s
  let s := applyIf (cls = "lowercase") (fun st => setField st "textTransform" (.str "lowercase")) s
  let s := applyIf (cls = "capitalize") (fun st => setField st "textTransform" (.str "capitalize")) s
  let s := applyMatched (matchNumArg "opacity-" cls)
    (fun v st => setField st "opacity" (.num ((v : ℚ) / 100))) s
  s

/-- One class token of the first parser revision, applied to the styles
accumulator: the if-blocks of the source in order. -/
def applyClass3 (store : TokenStore) (styles : List (String × JsVal))
    (cls : String) : List (String × JsVal) :=
  let s := styles
  let s := spacingBlockNum store 'p' "padding" cls s
  let s := spacingBlockNum store 'm' "margin" cls s
  let s := applyMatched (matchColorToken "bg-" cls)
    (fun ks st => colorAssign store.colors "backgroundColor" ks.1 ks.2 st) s
  let s := applyMatched (matchColorToken "text-" cls)
    (fun ks st => textBlockBody store ks.1 ks.2 st) s
  let s := applyMatched (matchSuffixIn "text-" textSizeNames cls)
    (fun sz st => setField st "fontSize" (storeGet store.fontSize sz)) s
  let s := roundedBlock store cls s
  let s := shadowBlock store cls s
  let s := applyMatched (matchNumArg "w-" cls)
    (fun v st => setField st "width"
      (jsNullish (storeGet store.spacing (toString v)) (.num (v : ℚ)))) s
  let s := applyMatched (matchNumArg "h-" cls)
    (fun v st => setField st "height"
      (jsNullish (storeGet store.spacing (toString v)) (.num (v : ℚ)))) s
  let s := keywordBlocks cls s
  let s := applyIf (cls = "border") (fun st => setField st "borderWidth" (.num 1)) s
  let s := applyMatched (matchColorToken "border-" cls)
    (fun ks st => colorAssign store.colors "borderColor" ks.1 ks.2 st) s
  let s := lateKeywordBlocks cls s
  let s := applyMatched (matchNumArg "gap-" cls)
    (fun v st => setField st "gap"
      (jsNullish (storeGet store.spacing (toString v)) (.num (v : ℚ)))) s
  let s := trailingBlocks cls s
  s

/-- One class token of the later parser revision: named spacing arguments,
flattened color fallbacks and named width, height and gap arguments. -/
def applyClass7 (store : TokenStore) (styles : List (String × JsVal))
    (cls : String) : List (String × JsVal) :=
  let s := styles
  let s := spacingBlockRaw store 'p' "padding" cls s
  let s := spacingBlockRaw store 'm' "margin" cls s
  let s :=
    match matchColorToken "bg-" cls with
    | some ks => colorAssign store.colors "backgroundColor" ks.1 ks.2 s
    | none => applyMatched (matchFlatColor "bg-" cls)
        (fun fk st => flatColorBlock store "backgroundColor" fk st) s
  let s :=
    match matchColorToken "text-" cls with
    | some ks => textBlockBody store ks.1 ks.2 s
    | none => applyMatched (matchFlatColor "text-" cls)
        (fun fk st => flatColorBlock store "color" fk st) s
  let s := applyMatched (matchSuffixIn "text-" textSizeNames cls)
    (fun sz st => setField st "fontSize" (storeGet store.fontSize sz)) s
  let s := roundedBlock store cls s
  let s := shadowBlock store cls s
  let s := applyMatched (matchRawArg "w-" cls)
    (fun raw st => setField st "width"
      (match strToNat? raw with
       | some n => jsNullish (storeGet store.spacing (toString n)) (.num (n : ℚ))
       | none => jsNullish (storeGet store.spacing raw) (.str raw))) s
  let s := applyMatched (matchRawArg "h-" cls)
    (fun raw st => setField st "height"
      (match strToNat? raw with
       | some n => jsNullish (storeGet store.spacing (toString n)) (.num (n : ℚ))
       | none => jsNullish (storeGet store.spacing raw) (.str raw))) s
  let s := keywordBlocks cls s
  let s := applyIf (cls = "border") (fun st => setField st "borderWidth" (.num 1)) s
  let s :=
    match matchColorToken "border-" cls with
    | some ks => colorAssign store.colors "borderColor" ks.1 ks.2 s
    | none => applyMatched (matchFlatColor "border-" cls)
        (fun fk st => flatColorBlock store "borderColor" fk st) s
  let s := lateKeywordBlocks cls s
  let s := applyMatched (matchRawArg "gap-" cls)
    (fun raw st => setField st "gap"
      (match strToNat? raw with
       | some n => jsNullish (storeGet store.spacing (toString n)) (.num (n : ℚ))
       | none => storeGet store.spacing raw)) s
  let s := trailingBlocks cls s
  s

/-- Whitespace tokenization of a class string: split on whitespace and drop
empty tokens. -/
def tokenize (s : String) : List String :=
  ((splitCharsBy (fun c => c.isWhitespace) s.data).map String.mk).filter
    (fun t => !(t = ""))

/-- createStyleObject of the first parser revision. -/
def createStyleObject3 (store : TokenStore) (className : String) :
    List (String × JsVal) :=
  (tokenize className).foldl (applyClass3 store) []

/-- createStyleObject of the later parser revision. -/
def createStyleObject7 (store : TokenStore) (className : String) :
    List (String × JsVal) :=
  (tokenize className).foldl (applyClass7 store) []

/-- The exact-keyword classes recognized by both parser revisions. -/
def keywordClasses : List String :=
  ["flex", "flex-row", "flex-col", "flex-column", "items-center",
   "justify-center", "self-center", "justify-start", "justify-end",
   "justify-between", "justify-around", "items-start", "items-end",
   "border", "text-center", "text-left", "text-right", "font-thin",
   "font-light", "font-normal", "font-medium", "font-semibold",
   "font-bold", "w-full", "h-full", "uppercase", "lowercase",
   "capitalize", "rounded", "shadow"]

/-- A token matches some pattern rule of the first parser revision. -/
def matchesRule3 (cls : String) : Bool :=
  (matchSpacingNum 'p' cls).isSome || (matchSpacingNum 'm' cls).isSome ||
  (matchColorToken "bg-" cls).isSome || (matchColorToken "text-" cls).isSome ||
  (matchSuffixIn "text-" textSizeNames cls).isSome ||
  (matchSuffixIn "rounded-" roundedNames cls).isSome ||
  (matchSuffixIn "shadow-" shadowNames cls).isSome ||
  (matchNumArg "w-" cls).isSome || (matchNumArg "h-" cls).isSome ||
  (matchColorToken "border-" cls).isSome ||
  (matchNumArg "gap-" cls).isSome || (matchNumArg "opacity-" cls).isSome ||
  keywordClasses.contains cls

/-- A token matches some pattern rule of the later parser revision. -/
def matchesRule7 (cls : String) : Bool :=
  (matchSpacingRaw 'p' cls).isSome || (matchSpacingRaw 'm' cls).isSome ||
  (matchColorToken "bg-" cls).isSome || (matchFlatColor "bg-" cls).isSome ||
  (matchColorToken "text-" cls).isSome || (matchFlatColor "text-" cls).isSome ||
  (matchSuffixIn "text-" textSizeNames cls).isSome ||
  (matchSuffixIn "rounded-" roundedNames cls).isSome ||
  (matchSuffixIn "shadow-" shadowNames cls).isSome ||
  (matchRawArg "w-" cls).isSome || (matchRawArg "h-" cls).isSome ||
  (matchColorToken "border-" cls).isSome || (matchFlatColor "border-" cls).isSome ||
  (matchRawArg "gap-" cls).isSome || (matchNumArg "opacity-" cls).isSome ||
  keywordClasses.contains cls

/-! ### Helper lemmas about object field lists -/

/-- First-defined choice on optional lookups. -/
def optOr (a b : Option JsVal) : Option JsVal :=
  match a with
  | some v => some v
  | none => b

theorem getField_nil (k : String) : getField [] k = none := rfl

theorem getField_cons (kv : String × JsVal) (rest : List (String × JsVal))
    (k : String) :
    getField (kv :: rest) k =
      if kv.1 = k then some kv.2 else getField rest k := by
  by_cases h : kv.1 = k <;> simp [getField, List.find?, h]

theorem setField_cons (kv : String × JsVal) (rest : List (String × JsVal))
    (k : String) (v : JsVal) :
    setField (kv :: rest) k v =
      if kv.1 = k then (k, v) :: rest else kv :: setField rest k v := by
  obtain ⟨k', v'⟩ := kv
  by_cases h : k' = k <;> simp [setField, h]

theorem getField_setField_self (m : List (String × JsVal)) (k : String) (v : JsVal) :
    getField (setField m k v) k = some v := by
  induction m with
  | nil => simp [setField, getField_cons]
  | cons kv rest ih =>
      rw [setField_cons]
      by_cases h : kv.1 = k
      · simp [h, getField_cons]
      · rw [if_neg h, getField_cons, if_neg h]
        exact ih

theorem getField_setField_ne (m : List (String × JsVal)) (k q : String) (v : JsVal)
    (h : k ≠ q) :
    getField (setField m k v) q = getField m q := by
  induction m with
  | nil => simp [setField, getField_cons, getField_nil, h]
  | cons kv rest ih =>
      rw [setField_cons]
      by_cases h2 : kv.1 = k
      · rw [if_pos h2, getField_cons, getField_cons]
        rw [if_neg h, h2, if_neg h]
      · rw [if_neg h2, getField_cons, getField_cons]
        by_cases h3 : kv.1 = q
        · simp [h3]
        · simp only [h3, if_false]
          exact ih

theorem getField_objAssign (m u : List (String × JsVal)) (q : String)
    (hu : (u.map Prod.fst).Nodup) :
    getField (objAssign m u) q = optOr (getField u q) (getField m q) := by
  induction u generalizing m with
  | nil => simp [objAssign, optOr, getField_nil]
  | cons kv rest ih =>
      obtain ⟨k, v⟩ := kv
      simp only [List.map_cons, List.nodup_cons] at hu
      have step : objAssign m ((k, v) :: rest) = objAssign (setField m k v) rest := by
        simp [objAssign]
      rw [step, ih (setField m k v) hu.2]
      by_cases hq : k = q
      · subst hq
        have hnone : getField rest k = none := by
          cases hfind : (rest.find? (fun kv => kv.1 = k)) with
          | none => simp [getField, hfind]
          | some kv2 =>
              exfalso
              have hmem := List.mem_of_find?_eq_some hfind
              have hkeq : kv2.1 = k := by
                have := List.find?_some hfind
                simpa using this
              exact hu.1 (hkeq ▸ List.mem_map_of_mem Prod.fst hmem)
        rw [hnone]
        simp [optOr, getField_cons, getField_setField_self]
      · rw [getField_cons]
        simp only [hq, if_false]
        rw [getField_setField_ne m k q v hq]

theorem hasField_eq_isSome_getField (fields : List (String × JsVal)) (k : String) :
    hasField fields k = (getField fields k).isSome := by
  simp [hasField, getField]

theorem getField_append (a b : List (String × JsVal)) (k : String) :
    getField (a ++ b) k = optOr (getField a k) (getField b k) := by
  induction a with
  | nil => simp [getField_nil, optOr]
  | cons kv rest ih =>
      rw [List.cons_append, getField_cons, getField_cons]
      by_cases h : kv.1 = k
      · simp [h, optOr]
      · simp only [h, if_false]
        exact ih

/-! ### Lemmas about the descending breakpoint sort -/

theorem perm_insertDesc (x : String × ℚ) (l : List (String × ℚ)) :
    List.Perm (insertDesc x l) (x :: l) := by
  induction l with
  | nil => exact List.Perm.refl _
  | cons y ys ih =>
      by_cases h : y.2 ≤ x.2
      · simp only [insertDesc, h, if_true]
        exact List.Perm.refl _
      · simp only [insertDesc, h, if_false]
        exact (ih.cons y).trans (List.Perm.swap x y ys)

theorem perm_sortByWidthDesc (l : List (String × ℚ)) :
    List.Perm (sortByWidthDesc l) l := by
  induction l with
  | nil => exact List.Perm.refl _
  | cons x xs ih =>
      exact (perm_insertDesc x (sortByWidthDesc xs)).trans (ih.cons x)

theorem pairwise_insertDesc (x : String × ℚ) (l : List (String × ℚ))
    (hl : l.Pairwise (fun a b => b.2 ≤ a.2)) :
    (insertDesc x l).Pairwise (fun a b => b.2 ≤ a.2) := by
  induction l with
  | nil => simp [insertDesc]
  | cons y ys ih =>
      rcases List.pairwise_cons.mp hl with ⟨hy, hys⟩
      by_cases h : y.2 ≤ x.2
      · simp only [insertDesc, h, if_true]
        refine List.pairwise_cons.mpr ⟨?_, hl⟩
        intro z hz
        rcases List.mem_cons.mp hz with hz | hz
        · exact hz ▸ h
        · exact le_trans (hy z hz) h
      · simp only [insertDesc, h, if_false]
        refine List.pairwise_cons.mpr ⟨?_, ih hys⟩
        intro z hz
        have hz2 := (perm_insertDesc x ys).mem_iff.mp hz
        rcases List.mem_cons.mp hz2 with hz3 | hz3
        · exact hz3 ▸ le_of_not_le h
        · exact hy z hz3

theorem pairwise_sortByWidthDesc (l : List (String × ℚ)) :
    (sortByWidthDesc l).Pairwise (fun a b => b.2 ≤ a.2) := by
  induction l with
  | nil => simp [sortByWidthDesc]
  | cons x xs ih => exact pairwise_insertDesc x (sortByWidthDesc xs) ih

/-- In a width-descending list with pairwise-distinct widths, find? returns
the unique entry of maximal width among those satisfying the predicate. -/
theorem find?_desc_max (l : List (String × ℚ)) (p : String × ℚ → Bool)
    (e : String × ℚ)
    (hsorted : l.Pairwise (fun a b => b.2 ≤ a.2))
    (hnodup : (l.map Prod.snd).Nodup)
    (hmem : e ∈ l) (hpe : p e = true)
    (hmax : ∀ x ∈ l, p x = true → x.2 ≤ e.2) :
    l.find? p = some e := by
  induction l with
  | nil => cases hmem
  | cons y ys ih =>
      rcases List.pairwise_cons.mp hsorted with ⟨hy, hys⟩
      simp only [List.map_cons, List.nodup_cons] at hnodup
      by_cases hpy : p y = true
      · rw [List.find?_cons_of_pos _ hpy]
        rcases List.mem_cons.mp hmem with hm | hm
        · rw [hm]
        · exfalso
          have h1 : e.2 ≤ y.2 := hy e hm
          have h2 : y.2 ≤ e.2 := hmax y (List.mem_cons_self y ys) hpy
          have heq : y.2 = e.2 := le_antisymm h2 h1
          exact hnodup.1 (heq ▸ List.mem_map_of_mem Prod.snd hm)
      · rw [List.find?_cons_of_neg _ hpy]
        rcases List.mem_cons.mp hmem with hm | hm
        · exact absurd (hm ▸ hpe) hpy
        · exact ih hys hnodup.2 hm
            (fun x hx hpx => hmax x (List.mem_cons_of_mem y hx) hpx)

/-- Transfer of the descending search to resolveResponsive: with
pairwise-distinct widths, the result on a mapping is the value at the
widest table entry whose minimum width is within the current width and
whose key is defined in the mapping. -/
theorem resolveResponsive_widest (table : List (String × ℚ))
    (fields : List (String × JsVal)) (width : ℚ) (bp : String) (mw : ℚ)
    (v : JsVal)
    (hnodup : (table.map Prod.snd).Nodup)
    (hmem : (bp, mw) ∈ table) (hle : mw ≤ width)
    (hget : defGet fields bp = some v)
    (hmax : ∀ x ∈ table, x.2 ≤ width → (defGet fields x.1).isSome = true →
      x.2 ≤ mw) :
    resolveResponsive table width (.obj fields) = v := by
  have hperm := perm_sortByWidthDesc table
  have hsorted := pairwise_sortByWidthDesc table
  have hnodup2 : ((sortByWidthDesc table).map Prod.snd).Nodup :=
    ((hperm.map Prod.snd).nodup_iff).mpr hnodup
  have hmem2 : (bp, mw) ∈ sortByWidthDesc table := hperm.mem_iff.mpr hmem
  have hp : (fun e : String × ℚ =>
      decide (e.2 ≤ width) && (defGet fields e.1).isSome) (bp, mw) = true := by
    simp [hle, hget]
  have hm : ∀ x ∈ sortByWidthDesc table,
      (fun e : String × ℚ =>
        decide (e.2 ≤ width) && (defGet fields e.1).isSome) x = true →
      x.2 ≤ mw := by
    intro x hx hpx
    simp only [Bool.and_eq_true, decide_eq_true_eq] at hpx
    exact hmax x (hperm.mem_iff.mp hx) hpx.1 hpx.2
  have hfind := find?_desc_max (sortByWidthDesc table)
    (fun e => decide (e.2 ≤ width) && (defGet fields e.1).isSome) (bp, mw)
    hsorted hnodup2 hmem2 hp hm
  simp only [resolveResponsive, hfind, Option.getD]
  rw [hget]

/-- C4: responsive resolution selects by descending breakpoint width. For
the mapping base 10, md 20, lg 30 the resolver yields 20 at width 800, 30
at width 1200 and 10 at width 100, both over the breakpoint table of the
claim (base 0, md 768, lg 1024) and over the default theme table; and in
general, for every table with pairwise-distinct widths, every mapping and
every width, the result is the value of the widest table entry whose
minimum width is at most the current width and whose key is defined in
the mapping. -/
theorem claim_C4 :
    (resolveResponsive [("base", 0), ("md", 768), ("lg", 1024)] 800
        (.obj [("base", .num 10), ("md", .num 20), ("lg", .num 30)]) = .num 20 ∧
     resolveResponsive [("base", 0), ("md", 768), ("lg", 1024)] 1200
        (.obj [("base", .num 10), ("md", .num 20), ("lg", .num 30)]) = .num 30 ∧
     resolveResponsive [("base", 0), ("md", 768), ("lg", 1024)] 100
        (.obj [("base", .num 10), ("md", .num 20), ("lg", .num 30)]) = .num 10) ∧
    (resolveResponsive defaultBreakpoints 800
        (.obj [("base", .num 10), ("md", .num 20), ("lg", .num 30)]) = .num 20 ∧
     resolveResponsive defaultBreakpoints 1200
        (.obj [("base", .num 10), ("md", .num 20), ("lg", .num 30)]) = .num 30 ∧
     resolveResponsive defaultBreakpoints 100
        (.obj [("base", .num 10), ("md", .num 20), ("lg", .num 30)]) = .num 10) ∧
    (∀ (table : List (String × ℚ)) (fields : List (String × JsVal))
        (width : ℚ) (bp : String) (mw : ℚ) (v : JsVal),
      (table.map Prod.snd).Nodup →
      (bp, mw) ∈ table → mw ≤ width →
      defGet fields bp = some v →
      (∀ x ∈ table, x.2 ≤ width → (defGet fields x.1).isSome = true →
        x.2 ≤ mw) →
      resolveResponsive table width (.obj fields) = v) :=
  ⟨⟨by decide, by decide, by decide⟩,
   ⟨by decide, by decide, by decide⟩,
   fun table fields width bp mw v h1 h2 h3 h4 h5 =>
     resolveResponsive_widest table fields width bp mw v h1 h2 h3 h4 h5⟩

/-- Witness for C4: the general conjunct applied to the default breakpoint
table, the mapping md 20 at width 800. -/
theorem claim_C4_witness :
    (((defaultBreakpoints.map Prod.snd).Nodup ∧
      ("md", (768 : ℚ)) ∈ defaultBreakpoints ∧ (768 : ℚ) ≤ 800 ∧
      defGet [("md", .num 20)] "md" = some (.num 20) ∧
      (∀ x ∈ defaultBreakpoints, x.2 ≤ 800 →
        (defGet [("md", JsVal.num 20)] x.1).isSome = true → x.2 ≤ 768)) ∧
     resolveResponsive defaultBreakpoints 800 (.obj [("md", .num 20)]) =
       .num 20) :=
  ⟨⟨by decide, by decide, by norm_num, by decide, by decide⟩,
   claim_C4.2.2 defaultBreakpoints [("md", .num 20)] 800 "md" 768 (.num 20)
     (by decide) (by decide) (by norm_num) (by decide) (by decide)⟩

/-- C5: the claim states that responsive resolution is the identity on
every non-mapping, including plain objects without breakpoint keys such as
a shadow offset. The theme-utilities resolver (useResponsiveValue and the
createStyleResolver inner resolver) violates this: it treats every object
as a breakpoint mapping, so the shadow offset resolves to undefined at any
width, here 480. The core-style resolveResponsiveValue, guarded by
isResponsiveValue, does return the object unchanged, and the identity does
hold for primitives, null and arrays in both resolvers. -/
theorem claim_C5 :
    resolveResponsive defaultBreakpoints 480
      (.obj [("width", .num 0), ("height", .num 1)]) = .undef ∧
    JsVal.obj [("width", .num 0), ("height", .num 1)] ≠ .undef ∧
    isResponsiveValue (.obj [("width", .num 0), ("height", .num 1)]) = false ∧
    resolveResponsiveValue (.obj [("width", .num 0), ("height", .num 1)])
      "base" = .obj [("width", .num 0), ("height", .num 1)] ∧
    resolveResponsive defaultBreakpoints 480 (.str "red") = .str "red" ∧
    resolveResponsive defaultBreakpoints 480 .null = .null ∧
    resolveResponsive defaultBreakpoints 480 (.arr [.num 1, .num 2]) =
      .arr [.num 1, .num 2] := by
  refine ⟨by decide, by decide, by decide, by decide, rfl, rfl, rfl⟩

/-- A lookup that is absent or explicitly undefined reads as undefined. -/
theorem getD_undef_of_defGet_none (fields : List (String × JsVal)) (k : String)
    (h : defGet fields k = none) :
    (getField fields k).getD .undef = .undef := by
  unfold defGet at h
  cases hg : getField fields k with
  | none => simp
  | some v =>
      cases v <;> simp_all

/-- An absent key reads as none. -/
theorem getField_eq_none_of_hasField_false (fields : List (String × JsVal))
    (k : String) (h : hasField fields k = false) :
    getField fields k = none := by
  rw [hasField_eq_isSome_getField] at h
  exact Option.not_isSome_iff_eq_none.mp (by simp [h])

/-- C6, amended: the two resolvers fall back differently. The core-style
resolveResponsiveValue, on a mapping none of whose breakpoints at or below
the requested one is defined, returns base when defined, else the first
declared entry of the mapping — a deterministic value. The
theme-utilities resolver has no first-entry fallback: when no breakpoint
entry matches and base is absent it returns undefined. -/
theorem claim_C6 :
    (∀ (k : String) (v : JsVal) (rest : List (String × JsVal)) (bp : String),
      bp ∈ breakpointOrder →
      isResponsiveValue (.obj ((k, v) :: rest)) = true →
      (∀ b ∈ breakpointOrder.take (breakpointOrder.indexOf bp + 1),
        defGet ((k, v) :: rest) b = none) →
      resolveResponsiveValue (.obj ((k, v) :: rest)) bp = v) ∧
    (∀ (fields : List (String × JsVal)) (width : ℚ),
      hasField fields "base" = false →
      (∀ e ∈ defaultBreakpoints, e.2 ≤ width →
        (defGet fields e.1).isSome = false) →
      resolveResponsive defaultBreakpoints width (.obj fields) = .undef) := by
  constructor
  · intro k v rest bp hbp hresp hmiss
    have hcontains : breakpointOrder.contains bp = true := by
      simpa [List.contains] using List.elem_eq_true_of_mem hbp
    have hfind : ((breakpointOrder.take (breakpointOrder.indexOf bp + 1)).reverse).find?
        (fun b => (defGet ((k, v) :: rest) b).isSome) = none := by
      apply List.find?_eq_none.mpr
      intro b hb
      have hb2 : b ∈ breakpointOrder.take (breakpointOrder.indexOf bp + 1) :=
        List.mem_reverse.mp hb
      simp [hmiss b hb2]
    have hbase : defGet ((k, v) :: rest) "base" = none := by
      apply hmiss
      have : breakpointOrder.take (breakpointOrder.indexOf bp + 1) =
          "base" :: (breakpointOrder.drop 1).take (breakpointOrder.indexOf bp) := by
        rfl
      rw [this]
      exact List.mem_cons_self _ _
    simp only [resolveResponsiveValue, hresp, if_true, hcontains, if_true]
    rw [hfind]
    rw [getD_undef_of_defGet_none _ _ hbase]
    rfl
  · intro fields width hbase hmiss
    have hfind : (sortByWidthDesc defaultBreakpoints).find?
        (fun e => decide (e.2 ≤ width) && (defGet fields e.1).isSome) = none := by
      apply List.find?_eq_none.mpr
      intro e he
      have he2 : e ∈ defaultBreakpoints :=
        (perm_sortByWidthDesc defaultBreakpoints).mem_iff.mp he
      by_cases hw : e.2 ≤ width
      · simp [hw, hmiss e he2 hw]
      · simp [hw]
    simp only [resolveResponsive, hfind]
    rw [getField_eq_none_of_hasField_false fields "base" hbase]
    rfl

/-- Witness for C6: the mapping holding only md 20 resolved at the base
breakpoint falls back to its first declared entry in the core-style
resolver, and resolves to undefined at width 100 in the theme-utilities
resolver. -/
theorem claim_C6_witness :
    (("base" ∈ breakpointOrder ∧
      isResponsiveValue (.obj [("md", JsVal.num 20)]) = true ∧
      (∀ b ∈ breakpointOrder.take (breakpointOrder.indexOf "base" + 1),
        defGet [("md", JsVal.num 20)] b = none)) ∧
     resolveResponsiveValue (.obj [("md", .num 20)]) "base" = .num 20) ∧
    ((hasField [("md", JsVal.num 20)] "base" = false ∧
      (∀ e ∈ defaultBreakpoints, e.2 ≤ (100 : ℚ) →
        (defGet [("md", JsVal.num 20)] e.1).isSome = false)) ∧
     resolveResponsive defaultBreakpoints 100 (.obj [("md", .num 20)]) =
       .undef) :=
  ⟨⟨⟨by decide, by decide, by decide⟩,
    claim_C6.1 "md" (.num 20) [] "base" (by decide) (by decide) (by decide)⟩,
   ⟨⟨by decide, by decide⟩,
    claim_C6.2 [("md", .num 20)] 100 (by decide) (by decide)⟩⟩

/-- C6 counterexample: as stated, the claim requires a defined result
(the first declared entry, 20) and never undefined; the theme-utilities
resolver returns undefined for the mapping holding only md 20 at
width 100. -/
theorem claim_C6_counterexample :
    resolveResponsive defaultBreakpoints 100 (.obj [("md", .num 20)]) =
      .undef ∧ (JsVal.undef ≠ .num 20) := by
  exact ⟨by decide, by decide⟩

/-- C8 counterexample: with the scenario color family, getColorFromPath on
the bare family name returns the transparent sentinel, not the 500 shade
required by the claim; there is no default-to-500 rule on this path. -/
theorem claim_C8_counterexample :
    getColorFromPath
      (.obj [("primary", .obj [("50", .str "#eff6ff"), ("500", .str "#3b82f6"),
        ("900", .str "#1e3a8a")])]) "primary" = "transparent" ∧
    "transparent" ≠ "#3b82f6" := by
  exact ⟨by decide, by decide⟩

/-- C8, amended: with the scenario family, getColorFromPath resolves the
dotted path to the shade and collapses both the bare family name (a
non-string resolution) and an unknown family to the transparent sentinel;
resolveColorToken resolves the dotted path to the shade, returns the ramp
object itself for the bare family name, and falls back to the token text,
not to a sentinel, for an unknown dotted family. Neither function
implements a default-to-500 rule. -/
theorem claim_C8 :
    getColorFromPath
      (.obj [("primary", .obj [("50", .str "#eff6ff"), ("500", .str "#3b82f6"),
        ("900", .str "#1e3a8a")])]) "primary.500" = "#3b82f6" ∧
    getColorFromPath
      (.obj [("primary", .obj [("50", .str "#eff6ff"), ("500", .str "#3b82f6"),
        ("900", .str "#1e3a8a")])]) "primary" = "transparent" ∧
    getColorFromPath
      (.obj [("primary", .obj [("50", .str "#eff6ff"), ("500", .str "#3b82f6"),
        ("900", .str "#1e3a8a")])]) "doesnotexist.500" = "transparent" ∧
    resolveColorToken
      [("primary", .obj [("50", .str "#eff6ff"), ("500", .str "#3b82f6"),
        ("900", .str "#1e3a8a")])] "primary.500" = .str "#3b82f6" ∧
    resolveColorToken
      [("primary", .obj [("50", .str "#eff6ff"), ("500", .str "#3b82f6"),
        ("900", .str "#1e3a8a")])] "primary" =
      .obj [("50", .str "#eff6ff"), ("500", .str "#3b82f6"),
        ("900", .str "#1e3a8a")] ∧
    resolveColorToken
      [("primary", .obj [("50", .str "#eff6ff"), ("500", .str "#3b82f6"),
        ("900", .str "#1e3a8a")])] "doesnotexist.500" =
      .str "doesnotexist.500" := by
  refine ⟨by decide, by decide, by decide, by decide, by decide, by decide⟩

/-- Assigning fields none of which carries the key leaves that lookup
untouched. -/
theorem getField_objAssign_not_mem (m u : List (String × JsVal)) (q : String)
    (h : ∀ kv ∈ u, kv.1 ≠ q) :
    getField (objAssign m u) q = getField m q := by
  induction u generalizing m with
  | nil => simp [objAssign]
  | cons kv rest ih =>
      have step : objAssign m (kv :: rest) = objAssign (setField m kv.1 kv.2) rest := by
        simp [objAssign]
      rw [step, ih (setField m kv.1 kv.2) (fun x hx => h x (List.mem_cons_of_mem kv hx))]
      exact getField_setField_ne m kv.1 q kv.2 (h kv (List.mem_cons_self kv rest))

/-- A list with a successful lookup is nonempty. -/
theorem ne_nil_of_getField (l : List (String × JsVal)) (k : String) (v : JsVal)
    (h : getField l k = some v) : l ≠ [] := by
  intro he
  rw [he] at h
  exact Option.noConfusion h

/-- All keys differing from the requested one makes the lookup fail. -/
theorem getField_eq_none_of_all_ne (l : List (String × JsVal)) (k : String)
    (h : ∀ kv ∈ l, kv.1 ≠ k) : getField l k = none := by
  induction l with
  | nil => rfl
  | cons kv rest ih =>
      rw [getField_cons, if_neg (h kv (List.mem_cons_self kv rest))]
      exact ih (fun x hx => h x (List.mem_cons_of_mem kv hx))

/-- C7: merging is per-property, last-layer-wins. For four layers whose
container slots all define the same property with pairwise-different
values, the merged container carries the last layer value for that
property, while a property defined only by the first layer is preserved;
and absent layers as well as empty layers are skipped with no effect on
the output of mergeStyleDefinitionsPure. -/
theorem claim_C7 :
    (∀ (d1 d2 d3 d4 : StyleDef) (b1 b2 b3 b4 : List (String × JsVal))
        (p : String) (v1 v2 v3 v4 : JsVal),
      d1.container = .obj b1 → d2.container = .obj b2 →
      d3.container = .obj b3 → d4.container = .obj b4 →
      (b1.map Prod.fst).Nodup → (b4.map Prod.fst).Nodup →
      getField b1 p = some v1 → getField b2 p = some v2 →
      getField b3 p = some v3 → getField b4 p = some v4 →
      v1 ≠ v4 → v2 ≠ v4 → v3 ≠ v4 →
      (jsGet (mergeStyleDefinitionsPure [some d1, some d2, some d3, some d4]).container
        p = some v4 ∧
       ∀ (q : String) (w : JsVal), getField b1 q = some w →
         (∀ kv ∈ b2, kv.1 ≠ q) → (∀ kv ∈ b3, kv.1 ≠ q) →
         (∀ kv ∈ b4, kv.1 ≠ q) →
         jsGet (mergeStyleDefinitionsPure [some d1, some d2, some d3, some d4]).container
           q = some w)) ∧
    (∀ (pre post : List (Option StyleDef)),
      mergeStyleDefinitionsPure (pre ++ none :: post) =
        mergeStyleDefinitionsPure (pre ++ post)) ∧
    (∀ (pre post : List (Option StyleDef)),
      mergeStyleDefinitionsPure (pre ++ some {} :: post) =
        mergeStyleDefinitionsPure (pre ++ post)) := by
  refine ⟨?_, ?_, ?_⟩
  · intro d1 d2 d3 d4 b1 b2 b3 b4 p v1 v2 v3 v4 h1 h2 h3 h4 hn1 hn4
      hg1 hg2 hg3 hg4 _ _ _
    have hacc : (mergeStyleDefinitionsPure [some d1, some d2, some d3, some d4]).container =
        slotResult (objAssign (objAssign (objAssign (objAssign [] b1) b2) b3) b4) := by
      simp [mergeStyleDefinitionsPure, mergeStep, mergeSlot, h1, h2, h3, h4,
        spreadEntries, JsVal.truthy]
    constructor
    · have hlast : getField (objAssign (objAssign (objAssign (objAssign [] b1) b2) b3) b4) p =
          some v4 := by
        rw [getField_objAssign _ b4 p hn4, hg4]
        rfl
      have hne := ne_nil_of_getField _ p v4 hlast
      rw [hacc]
      unfold slotResult
      rw [if_neg hne]
      simpa [jsGet] using hlast
    · intro q w hq hq2 hq3 hq4
      have hval : getField (objAssign (objAssign (objAssign (objAssign [] b1) b2) b3) b4) q =
          some w := by
        rw [getField_objAssign_not_mem _ b4 q hq4,
          getField_objAssign_not_mem _ b3 q hq3,
          getField_objAssign_not_mem _ b2 q hq2,
          getField_objAssign _ b1 q hn1, hq]
        rfl
      have hne := ne_nil_of_getField _ q w hval
      rw [hacc]
      unfold slotResult
      rw [if_neg hne]
      simpa [jsGet] using hval
  · intro pre post
    unfold mergeStyleDefinitionsPure
    rw [List.foldl_append, List.foldl_append]
    rfl
  · intro pre post
    unfold mergeStyleDefinitionsPure
    rw [List.foldl_append, List.foldl_append]
    rfl

/-- Witness for C7: four single-property container layers with different
values, plus a first-layer-only property, merged concretely. -/
theorem claim_C7_witness :
    jsGet (mergeStyleDefinitionsPure
      [some { container := .obj [("backgroundColor", .str "a"), ("opacity", .num 1)] },
       some { container := .obj [("backgroundColor", .str "b")] },
       some { container := .obj [("backgroundColor", .str "c")] },
       some { container := .obj [("backgroundColor", .str "d")] }]).container
      "backgroundColor" = some (.str "d") ∧
    jsGet (mergeStyleDefinitionsPure
      [some { container := .obj [("backgroundColor", .str "a"), ("opacity", .num 1)] },
       some { container := .obj [("backgroundColor", .str "b")] },
       some { container := .obj [("backgroundColor", .str "c")] },
       some { container := .obj [("backgroundColor", .str "d")] }]).container
      "opacity" = some (.num 1) ∧
    mergeStyleDefinitionsPure
      [some { container := .obj [("backgroundColor", .str "a"), ("opacity", .num 1)] }, none] =
      mergeStyleDefinitionsPure
      [some { container := .obj [("backgroundColor", .str "a"), ("opacity", .num 1)] }] :=
  ⟨(claim_C7.1 _ _ _ _ _ _ _ _ "backgroundColor" (.str "a") (.str "b") (.str "c") (.str "d")
      rfl rfl rfl rfl (by decide) (by decide) (by decide) (by decide) (by decide)
      (by decide) (by decide) (by decide) (by decide)).1,
   (claim_C7.1 _ _ _ _ _ _ _ _ "backgroundColor" (.str "a") (.str "b") (.str "c") (.str "d")
      rfl rfl rfl rfl (by decide) (by decide) (by decide) (by decide) (by decide)
      (by decide) (by decide) (by decide) (by decide)).2 "opacity" (.num 1)
      (by decide) (by decide) (by decide) (by decide),
   claim_C7.2.1 [some { container := .obj [("backgroundColor", .str "a"), ("opacity", .num 1)] }] []⟩

/-- Folding merge steps over absent or empty layers keeps the empty
accumulator. -/
theorem foldl_mergeStep_empty (layers : List (Option StyleDef))
    (h : ∀ st ∈ layers, st = none ∨
      ∃ d : StyleDef, st = some d ∧
        (d.container = .undef ∨ d.container = .obj []) ∧
        (d.text = .undef ∨ d.text = .obj []) ∧
        (d.icon = .undef ∨ d.icon = .obj []) ∧
        (d.image = .undef ∨ d.image = .obj [])) :
    layers.foldl mergeStep {} = ({} : MergeAcc) := by
  induction layers with
  | nil => rfl
  | cons st rest ih =>
      have hstep : mergeStep {} st = ({} : MergeAcc) := by
        rcases h st (List.mem_cons_self st rest) with hn | ⟨d, hd, hc, ht, hi, hm⟩
        · rw [hn]; rfl
        · rw [hd]
          have slot : ∀ v : JsVal, (v = .undef ∨ v = .obj []) →
              mergeSlot [] v = [] := by
            intro v hv
            rcases hv with hv | hv <;> rw [hv] <;> rfl
          show ({ container := mergeSlot ({} : MergeAcc).container d.container,
                  text := mergeSlot ({} : MergeAcc).text d.text,
                  icon := mergeSlot ({} : MergeAcc).icon d.icon,
                  image := mergeSlot ({} : MergeAcc).image d.image } : MergeAcc) =
            ({} : MergeAcc)
          rw [slot d.container hc, slot d.text ht, slot d.icon hi, slot d.image hm]
      rw [List.foldl_cons, hstep]
      exact ih (fun x hx => h x (List.mem_cons_of_mem st hx))

/-- C10: every slot of a merged style definition is either undefined or a
mapping with at least one property, and merging only absent or empty
layers yields the all-undefined definition. -/
theorem claim_C10 :
    (∀ layers : List (Option StyleDef),
      ((mergeStyleDefinitionsPure layers).container = .undef ∨
        ∃ fs, fs ≠ [] ∧ (mergeStyleDefinitionsPure layers).container = .obj fs) ∧
      ((mergeStyleDefinitionsPure layers).text = .undef ∨
        ∃ fs, fs ≠ [] ∧ (mergeStyleDefinitionsPure layers).text = .obj fs) ∧
      ((mergeStyleDefinitionsPure layers).icon = .undef ∨
        ∃ fs, fs ≠ [] ∧ (mergeStyleDefinitionsPure layers).icon = .obj fs) ∧
      ((mergeStyleDefinitionsPure layers).image = .undef ∨
        ∃ fs, fs ≠ [] ∧ (mergeStyleDefinitionsPure layers).image = .obj fs)) ∧
    (∀ layers : List (Option StyleDef),
      (∀ st ∈ layers, st = none ∨
        ∃ d : StyleDef, st = some d ∧
          (d.container = .undef ∨ d.container = .obj []) ∧
          (d.text = .undef ∨ d.text = .obj []) ∧
          (d.icon = .undef ∨ d.icon = .obj []) ∧
          (d.image = .undef ∨ d.image = .obj [])) →
      mergeStyleDefinitionsPure layers = ({} : StyleDef)) := by
  constructor
  · intro layers
    have slot : ∀ acc : List (String × JsVal),
        slotResult acc = .undef ∨ ∃ fs, fs ≠ [] ∧ slotResult acc = .obj fs := by
      intro acc
      by_cases hacc : acc = []
      · left; rw [hacc]; rfl
      · right; exact ⟨acc, hacc, by unfold slotResult; rw [if_neg hacc]⟩
    exact ⟨slot _, slot _, slot _, slot _⟩
  · intro layers h
    unfold mergeStyleDefinitionsPure
    rw [foldl_mergeStep_empty layers h]
    rfl

/-- Witness for C10: merging an absent layer and a layer whose slots are
all undefined or the empty object yields the all-undefined definition. -/
theorem claim_C10_witness :
    mergeStyleDefinitionsPure [none, some { container := .obj [] }] =
      ({} : StyleDef) :=
  claim_C10.2 [none, some { container := .obj [] }]
    (by
      intro st hst
      rcases List.mem_cons.mp hst with h | h
      · exact Or.inl h
      · right
        have h2 : st = some { container := .obj [] } := by
          simpa using h
        exact ⟨{ container := .obj [] }, h2, Or.inr rfl, Or.inl rfl,
          Or.inl rfl, Or.inl rfl⟩)

/-- Properties that carry no pseudo key fail every pseudo lookup. -/
theorem getField_pseudo_none (props : List (String × JsVal))
    (hprops : ∀ kv ∈ props, kv.1 ∉ pseudoKeys) (k : String)
    (hk : k ∈ pseudoKeys) : getField props k = none :=
  getField_eq_none_of_all_ne props k
    (fun kv hkv he => (hprops kv hkv) (he ▸ hk))

/-- C2: disabled wins over hover. For every style whose pseudo overlays
are exactly a hover overlay and a disabled overlay that conflict on a
property, every interaction state with both isHovered and isDisabled set,
and every responsive resolver that leaves the two overlay objects
unchanged, the state-resolved style carries the disabled overlay value
for that property, because the overlays are applied in the fixed priority
order with disabled merged after hover. -/
theorem claim_C2 (props hov dis : List (String × JsVal)) (p : String)
    (vh vd : JsVal) (f : JsVal → JsVal) (state : ComponentState)
    (hprops : ∀ kv ∈ props, kv.1 ∉ pseudoKeys)
    (hgh : getField hov p = some vh) (hgd : getField dis p = some vd)
    (hne : vh ≠ vd) (hnodup : (dis.map Prod.fst).Nodup)
    (hfh : f (.obj hov) = .obj hov) (hfd : f (.obj dis) = .obj dis)
    (hH : state.isHovered = true) (hD : state.isDisabled = true) :
    jsGet (resolveStyleWithStateCore
      (.obj (props ++ [("_hover", .obj hov), ("_disabled", .obj dis)]))
      state f) p = some vd := by
  set F := props ++ [("_hover", JsVal.obj hov), ("_disabled", JsVal.obj dis)] with hF
  have hGhov : getField F "_hover" = some (.obj hov) := by
    rw [hF, getField_append,
      getField_pseudo_none props hprops "_hover" (by decide)]
    simp [getField_cons, optOr]
  have hGdis : getField F "_disabled" = some (.obj dis) := by
    rw [hF, getField_append,
      getField_pseudo_none props hprops "_disabled" (by decide)]
    simp [getField_cons, optOr]
  have hGnone : ∀ k ∈ (["_focus", "_pressed", "_selected", "_active",
      "_checked", "_invalid", "_loading", "_readOnly"] : List String),
      getField F k = none := by
    intro k hk
    have hkp : k ∈ pseudoKeys := by fin_cases hk <;> decide
    rw [hF, getField_append, getField_pseudo_none props hprops k hkp]
    fin_cases hk <;> simp [getField_cons, getField_nil, optOr]
  have hHhov : hasField F "_hover" = true := by
    rw [hasField_eq_isSome_getField, hGhov]; rfl
  have hHdis : hasField F "_disabled" = true := by
    rw [hasField_eq_isSome_getField, hGdis]; rfl
  have hHf : hasField F "_focus" = false := by
    rw [hasField_eq_isSome_getField, hGnone "_focus" (by decide)]; rfl
  have hHp : hasField F "_pressed" = false := by
    rw [hasField_eq_isSome_getField, hGnone "_pressed" (by decide)]; rfl
  have hHs : hasField F "_selected" = false := by
    rw [hasField_eq_isSome_getField, hGnone "_selected" (by decide)]; rfl
  have hHa : hasField F "_active" = false := by
    rw [hasField_eq_isSome_getField, hGnone "_active" (by decide)]; rfl
  have hHc : hasField F "_checked" = false := by
    rw [hasField_eq_isSome_getField, hGnone "_checked" (by decide)]; rfl
  have hHi : hasField F "_invalid" = false := by
    rw [hasField_eq_isSome_getField, hGnone "_invalid" (by decide)]; rfl
  have hHl : hasField F "_loading" = false := by
    rw [hasField_eq_isSome_getField, hGnone "_loading" (by decide)]; rfl
  have hHr : hasField F "_readOnly" = false := by
    rw [hasField_eq_isSome_getField, hGnone "_readOnly" (by decide)]; rfl
  have hfold : resolveStyleWithStateCore (.obj F) state f =
      jsSpread2 (jsSpread2 (f (.obj F)) (.obj hov)) (.obj dis) := by
    simp only [resolveStyleWithStateCore, pseudoEntries, List.foldl_cons,
      List.foldl_nil, hH, hD, hHhov, hHdis, hHf, hHp, hHs, hHa, hHc, hHi,
      hHl, hHr, Bool.and_false, Bool.and_true, Bool.true_and, if_true,
      if_false, Bool.false_eq_true, hGhov, hGdis, Option.getD_some,
      JsVal.truthy, hfh, hfd]
  rw [hfold]
  show getField (objAssign (spreadEntries (jsSpread2 (f (.obj F)) (.obj hov))) dis) p = some vd
  rw [getField_objAssign _ dis p hnodup, hgd]
  rfl

/-- Witness for C2: a base color with conflicting hover and disabled
overlays, the identity resolver, and a state that is both hovered and
disabled resolves the color to the disabled overlay value. -/
theorem claim_C2_witness :
    ((∀ kv ∈ ([("color", JsVal.str "red")] : List (String × JsVal)),
        kv.1 ∉ pseudoKeys) ∧
      getField [("color", JsVal.str "blue")] "color" = some (.str "blue") ∧
      getField [("color", JsVal.str "gray")] "color" = some (.str "gray") ∧
      JsVal.str "blue" ≠ .str "gray" ∧
      ((([("color", JsVal.str "gray")] : List (String × JsVal)).map
        Prod.fst).Nodup) ∧
      id (JsVal.obj [("color", .str "blue")]) = .obj [("color", .str "blue")] ∧
      id (JsVal.obj [("color", .str "gray")]) = .obj [("color", .str "gray")]) ∧
    jsGet (resolveStyleWithStateCore
      (.obj ([("color", .str "red")] ++
        [("_hover", .obj [("color", .str "blue")]),
         ("_disabled", .obj [("color", .str "gray")])]))
      { isHovered := true, isDisabled := true } id) "color" =
      some (.str "gray") :=
  ⟨⟨by decide, by decide, by decide, by decide, by decide, rfl, rfl⟩,
   claim_C2 [("color", .str "red")] [("color", .str "blue")]
     [("color", .str "gray")] "color" (.str "blue") (.str "gray") id
     { isHovered := true, isDisabled := true }
     (by decide) (by decide) (by decide) (by decide) (by decide) rfl rfl
     rfl rfl⟩

/-- C1: the cache is not observably pure for resolveStyleWithState. Its
cache key is the pair of style and state only, so a second call with a
different responsive resolver (the viewport width changed from 100 to
1200) returns the stale cached result instead of the empty-cache result;
clearing the cache changes the observable answer. The claim (and the
stated invariant) is therefore right about the intended behavior and the
code violates it: this evaluates the embedded code at the failing input. -/
theorem claim_C1 :
    (resolveStyleWithState
      (.obj [("base", .obj [("color", .str "red")]),
             ("lg", .obj [("color", .str "blue")])]) {}
      (resolveResponsive defaultBreakpoints 100) emptyThemeCache).1 =
      .obj [("color", .str "red")] ∧
    (resolveStyleWithState
      (.obj [("base", .obj [("color", .str "red")]),
             ("lg", .obj [("color", .str "blue")])]) {}
      (resolveResponsive defaultBreakpoints 1200)
      ((resolveStyleWithState
        (.obj [("base", .obj [("color", .str "red")]),
               ("lg", .obj [("color", .str "blue")])]) {}
        (resolveResponsive defaultBreakpoints 100) emptyThemeCache).2)).1 =
      .obj [("color", .str "red")] ∧
    (resolveStyleWithState
      (.obj [("base", .obj [("color", .str "red")]),
             ("lg", .obj [("color", .str "blue")])]) {}
      (resolveResponsive defaultBreakpoints 1200) emptyThemeCache).1 =
      .obj [("color", .str "blue")] ∧
    (resolveStyleWithState
      (.obj [("base", .obj [("color", .str "red")]),
             ("lg", .obj [("color", .str "blue")])]) {}
      (resolveResponsive defaultBreakpoints 1200)
      (clearThemeCache
        ((resolveStyleWithState
          (.obj [("base", .obj [("color", .str "red")]),
                 ("lg", .obj [("color", .str "blue")])]) {}
          (resolveResponsive defaultBreakpoints 100) emptyThemeCache).2))).1 =
      .obj [("color", .str "blue")] ∧
    JsVal.obj [("color", .str "red")] ≠ .obj [("color", .str "blue")] := by
  refine ⟨by decide, by decide, by decide, by decide, by decide⟩

theorem mapGet_eq_none_of_all_ne {K V : Type} [DecidableEq K]
    (m : List (K × V)) (k : K) (h : ∀ kv ∈ m, kv.1 ≠ k) :
    mapGet m k = none := by
  unfold mapGet
  rw [List.find?_eq_none.mpr]
  · rfl
  · intro kv hkv
    simpa using h kv hkv

theorem mapSet_fresh_append {K V : Type} [DecidableEq K]
    (m : List (K × V)) (k : K) (v : V) (h : ∀ kv ∈ m, kv.1 ≠ k) :
    mapSet m k v = m ++ [(k, v)] := by
  induction m with
  | nil => rfl
  | cons kv rest ih =>
      obtain ⟨a, b⟩ := kv
      have ha : a ≠ k := h (a, b) (List.mem_cons_self _ _)
      simp only [mapSet, ha, if_false, List.cons_append]
      rw [ih (fun x hx => h x (List.mem_cons_of_mem _ hx))]

theorem clearCacheIfNeeded_id {K V : Type} (m : List (K × V))
    (h : m.length ≤ CACHE_SIZE_LIMIT) : clearCacheIfNeeded m = m := by
  unfold clearCacheIfNeeded
  rw [if_neg (by omega)]

theorem sortDefaultBreakpoints :
    sortByWidthDesc defaultBreakpoints =
      [("2xl", 1536), ("xl", 1200), ("lg", 992), ("md", 768),
       ("sm", 480), ("base", 0)] := by decide

/-- One useResponsiveValue call on a fresh single-base mapping at width
480: it resolves to the base value through the breakpoint loop and stores
it through the capacity-checked set path, leaving other tables alone. -/
theorem uRV_step (c : ThemeCache) (n : ℕ)
    (hmiss : mapGet c.responsiveValues
      (JsVal.obj [("base", JsVal.num (n : ℚ))], (480 : ℚ)) = none) :
    (useResponsiveValue 480 (.obj [("base", .num (n : ℚ))]) c).1 =
      JsVal.num (n : ℚ) ∧
    (useResponsiveValue 480 (.obj [("base", .num (n : ℚ))]) c).2.responsiveValues =
      mapSet (clearCacheIfNeeded c.responsiveValues)
        (JsVal.obj [("base", JsVal.num (n : ℚ))], 480) (JsVal.num (n : ℚ)) ∧
    (useResponsiveValue 480 (.obj [("base", .num (n : ℚ))]) c).2.resolvedStyles =
      c.resolvedStyles ∧
    (useResponsiveValue 480 (.obj [("base", .num (n : ℚ))]) c).2.computedStyles =
      c.computedStyles := by
  have hfind : (sortByWidthDesc defaultBreakpoints).find?
      (fun e => decide (e.2 ≤ (480 : ℚ)) &&
        (defGet [("base", JsVal.num (n : ℚ))] e.1).isSome) =
      some ("base", 0) := by
    rw [sortDefaultBreakpoints]
    simp only [List.find?]
    norm_num [defGet, getField_cons, getField_nil]
    simp
  refine ⟨?_, ?_, ?_, ?_⟩ <;>
    simp only [useResponsiveValue, hmiss, hfind] <;> rfl


/-- Invariant of filling the responsive-value table with distinct
mappings: for the first limit-plus-one inserts the table is exactly the
insertion list and the other tables stay empty. -/
theorem rvFold_spec (n : ℕ) (h : n ≤ CACHE_SIZE_LIMIT + 1) :
    ((List.range n).foldl
      (fun (c : ThemeCache) (i : ℕ) =>
        (useResponsiveValue 480 (.obj [("base", JsVal.num (i : ℚ))]) c).2)
      emptyThemeCache).responsiveValues =
      (List.range n).map (fun (i : ℕ) =>
        ((JsVal.obj [("base", JsVal.num (i : ℚ))], (480 : ℚ)),
         JsVal.num (i : ℚ))) ∧
    ((List.range n).foldl
      (fun (c : ThemeCache) (i : ℕ) =>
        (useResponsiveValue 480 (.obj [("base", JsVal.num (i : ℚ))]) c).2)
      emptyThemeCache).resolvedStyles = [] ∧
    ((List.range n).foldl
      (fun (c : ThemeCache) (i : ℕ) =>
        (useResponsiveValue 480 (.obj [("base", JsVal.num (i : ℚ))]) c).2)
      emptyThemeCache).computedStyles = [] := by
  induction n with
  | zero => exact ⟨rfl, rfl, rfl⟩
  | succ m ih =>
      obtain ⟨h1, h2, h3⟩ := ih (Nat.le_of_succ_le h)
      rw [List.range_succ, List.foldl_append, List.foldl_cons, List.foldl_nil]
      set C := (List.range m).foldl
        (fun (c : ThemeCache) (i : ℕ) =>
          (useResponsiveValue 480 (.obj [("base", JsVal.num (i : ℚ))]) c).2)
        emptyThemeCache with hC
      have hfresh : ∀ kv ∈ C.responsiveValues,
          kv.1 ≠ (JsVal.obj [("base", JsVal.num (m : ℚ))], (480 : ℚ)) := by
        rw [h1]
        intro kv hkv
        obtain ⟨i, hi, hkv2⟩ := List.mem_map.mp hkv
        have hin : i < m := List.mem_range.mp hi
        rw [← hkv2]
        intro he
        have hobj := congrArg Prod.fst he
        simp only at hobj
        have hq : (i : ℚ) = (m : ℚ) := by
          have ho2 := JsVal.obj.inj hobj
          have ho3 := (List.cons.inj ho2).1
          have ho4 := (Prod.mk.injEq _ _ _ _).mp ho3
          exact JsVal.num.inj ho4.2
        have : i = m := Nat.cast_injective hq
        omega
      have hmiss := mapGet_eq_none_of_all_ne C.responsiveValues _ hfresh
      obtain ⟨s1, s2, s3, s4⟩ := uRV_step C m hmiss
      refine ⟨?_, ?_, ?_⟩
      · rw [s2, clearCacheIfNeeded_id _ ?_, mapSet_fresh_append _ _ _ hfresh, h1,
          List.map_append]
        · rfl
        · rw [h1]
          simp only [List.length_map, List.length_range]
          omega
      · rw [s3]; exact h2
      · rw [s4]; exact h3


/-- C3 counterexample: inserting maxCacheSize plus one (1001) distinct
entries through the responsive-value set path leaves that table at size
1001, not at most 1 — the capacity check clears only when the size already
exceeds the limit before the insert — while the other two tables stay
empty. -/
theorem claim_C3_counterexample :
    ((List.range 1001).foldl
      (fun (c : ThemeCache) (i : ℕ) =>
        (useResponsiveValue 480 (.obj [("base", JsVal.num (i : ℚ))]) c).2)
      emptyThemeCache).responsiveValues.length = 1001 ∧
    ¬(((List.range 1001).foldl
      (fun (c : ThemeCache) (i : ℕ) =>
        (useResponsiveValue 480 (.obj [("base", JsVal.num (i : ℚ))]) c).2)
      emptyThemeCache).responsiveValues.length ≤ 1) ∧
    ((List.range 1001).foldl
      (fun (c : ThemeCache) (i : ℕ) =>
        (useResponsiveValue 480 (.obj [("base", JsVal.num (i : ℚ))]) c).2)
      emptyThemeCache).resolvedStyles.length = 0 ∧
    ((List.range 1001).foldl
      (fun (c : ThemeCache) (i : ℕ) =>
        (useResponsiveValue 480 (.obj [("base", JsVal.num (i : ℚ))]) c).2)
      emptyThemeCache).computedStyles.length = 0 := by
  obtain ⟨h1, h2, h3⟩ := rvFold_spec 1001 (by norm_num [CACHE_SIZE_LIMIT])
  refine ⟨?_, ?_, ?_, ?_⟩
  · rw [h1]; simp
  · rw [h1]; simp
  · rw [h2]; rfl
  · rw [h3]; rfl

/-- C3, amended: a guarded insert into a table at or below capacity always
grows it by one (so maxCacheSize plus one distinct inserts leave size
maxCacheSize plus one and no clear fires); the full clear fires on the
insert that finds the table above capacity, so inserting maxCacheSize plus
two (1002) distinct entries leaves the table at size exactly 1 immediately
after the triggering insert, and the other two tables are untouched. -/
theorem claim_C3 :
    (∀ (K V : Type) [DecidableEq K] (m : List (K × V)) (k : K) (v : V),
      m.length ≤ CACHE_SIZE_LIMIT → (∀ kv ∈ m, kv.1 ≠ k) →
      (mapSet (clearCacheIfNeeded m) k v).length = m.length + 1) ∧
    (((List.range 1002).foldl
      (fun (c : ThemeCache) (i : ℕ) =>
        (useResponsiveValue 480 (.obj [("base", JsVal.num (i : ℚ))]) c).2)
      emptyThemeCache).responsiveValues.length = 1 ∧
     ((List.range 1002).foldl
      (fun (c : ThemeCache) (i : ℕ) =>
        (useResponsiveValue 480 (.obj [("base", JsVal.num (i : ℚ))]) c).2)
      emptyThemeCache).resolvedStyles = [] ∧
     ((List.range 1002).foldl
      (fun (c : ThemeCache) (i : ℕ) =>
        (useResponsiveValue 480 (.obj [("base", JsVal.num (i : ℚ))]) c).2)
      emptyThemeCache).computedStyles = []) := by
  constructor
  · intro K V _ m k v hlen hfresh
    rw [clearCacheIfNeeded_id m hlen, mapSet_fresh_append m k v hfresh]
    simp
  · obtain ⟨h1, h2, h3⟩ := rvFold_spec 1001 (by norm_num [CACHE_SIZE_LIMIT])
    have hr : List.range 1002 = List.range 1001 ++ [1001] := List.range_succ 1001
    rw [hr, List.foldl_append, List.foldl_cons, List.foldl_nil]
    set C := (List.range 1001).foldl
      (fun (c : ThemeCache) (i : ℕ) =>
        (useResponsiveValue 480 (.obj [("base", JsVal.num (i : ℚ))]) c).2)
      emptyThemeCache with hC
    have hfresh : ∀ kv ∈ C.responsiveValues,
        kv.1 ≠ (JsVal.obj [("base", JsVal.num ((1001 : ℕ) : ℚ))], (480 : ℚ)) := by
      rw [h1]
      intro kv hkv
      obtain ⟨i, hi, hkv2⟩ := List.mem_map.mp hkv
      have hin : i < 1001 := List.mem_range.mp hi
      rw [← hkv2]
      intro he
      have hobj := congrArg Prod.fst he
      simp only at hobj
      have hq : (i : ℚ) = ((1001 : ℕ) : ℚ) := by
        have ho2 := JsVal.obj.inj hobj
        have ho3 := (List.cons.inj ho2).1
        have ho4 := (Prod.mk.injEq _ _ _ _).mp ho3
        exact JsVal.num.inj ho4.2
      have : i = 1001 := Nat.cast_injective hq
      omega
    have hmiss := mapGet_eq_none_of_all_ne C.responsiveValues _ hfresh
    obtain ⟨s1, s2, s3, s4⟩ := uRV_step C 1001 hmiss
    have hclear : clearCacheIfNeeded C.responsiveValues = [] := by
      unfold clearCacheIfNeeded
      rw [if_pos]
      rw [h1]
      simp [CACHE_SIZE_LIMIT]
    refine ⟨?_, ?_, ?_⟩
    · rw [s2, hclear]
      rfl
    · rw [s3]; exact h2
    · rw [s4]; exact h3

/-- Witness for C3: the guarded-insert growth law applied to an empty
table of natural-number keys. -/
theorem claim_C3_witness :
    ((([] : List (ℕ × ℕ)).length ≤ CACHE_SIZE_LIMIT ∧
      (∀ kv ∈ ([] : List (ℕ × ℕ)), kv.1 ≠ 0)) ∧
     (mapSet (clearCacheIfNeeded ([] : List (ℕ × ℕ))) 0 7).length =
       ([] : List (ℕ × ℕ)).length + 1) :=
  ⟨⟨by decide, by decide⟩, claim_C3.1 ℕ ℕ [] 0 7 (by decide) (by decide)⟩

theorem eq_none_of_isSome_false {α : Type} (o : Option α)
    (h : o.isSome = false) : o = none := by
  cases o with
  | none => rfl
  | some v => simp at h

theorem applyMatched_none {α : Type}
    (f : α → List (String × JsVal) → List (String × JsVal))
    (s : List (String × JsVal)) :
    applyMatched (none : Option α) f s = s := rfl

theorem not_mem_keyword_of_contains_false (cls : String)
    (h : keywordClasses.contains cls = false) : cls ∉ keywordClasses := by
  intro hm
  simp only [List.contains] at h
  rw [List.elem_eq_true_of_mem hm] at h
  exact Bool.noConfusion h

theorem keywordBlocks_id (cls : String) (s : List (String × JsVal))
    (h : keywordClasses.contains cls = false) : keywordBlocks cls s = s := by
  have hmem := not_mem_keyword_of_contains_false cls h
  have e : ∀ x : String, x ∈ keywordClasses → (cls = x) = False :=
    fun x hx => eq_false (fun he => hmem (he ▸ hx))
  simp only [keywordBlocks, applyIf,
    e "flex" (by decide), e "flex-row" (by decide), e "flex-col" (by decide),
    e "flex-column" (by decide), e "items-center" (by decide),
    e "justify-center" (by decide), e "self-center" (by decide),
    e "justify-start" (by decide), e "justify-end" (by decide),
    e "justify-between" (by decide), e "justify-around" (by decide),
    e "items-start" (by decide), e "items-end" (by decide),
    decide_False, Bool.false_eq_true, if_false, or_self, or_false, false_or]

theorem lateKeywordBlocks_id (cls : String) (s : List (String × JsVal))
    (h : keywordClasses.contains cls = false) : lateKeywordBlocks cls s = s := by
  have hmem := not_mem_keyword_of_contains_false cls h
  have e : ∀ x : String, x ∈ keywordClasses → (cls = x) = False :=
    fun x hx => eq_false (fun he => hmem (he ▸ hx))
  simp only [lateKeywordBlocks, applyIf,
    e "text-center" (by decide), e "text-left" (by decide),
    e "text-right" (by decide), e "font-thin" (by decide),
    e "font-light" (by decide), e "font-normal" (by decide),
    e "font-medium" (by decide), e "font-semibold" (by decide),
    e "font-bold" (by decide), decide_False, Bool.false_eq_true, if_false]

theorem trailingBlocks_id (cls : String) (s : List (String × JsVal))
    (h : keywordClasses.contains cls = false)
    (ho : matchNumArg "opacity-" cls = none) : trailingBlocks cls s = s := by
  have hmem := not_mem_keyword_of_contains_false cls h
  have e : ∀ x : String, x ∈ keywordClasses → (cls = x) = False :=
    fun x hx => eq_false (fun he => hmem (he ▸ hx))
  simp only [trailingBlocks, applyIf,
    e "w-full" (by decide), e "h-full" (by decide),
    e "uppercase" (by decide), e "lowercase" (by decide),
    e "capitalize" (by decide), decide_False, Bool.false_eq_true, if_false,
    ho, applyMatched_none]

theorem roundedBlock_id (store : TokenStore) (cls : String)
    (s : List (String × JsVal))
    (h : keywordClasses.contains cls = false)
    (hm : matchSuffixIn "rounded-" roundedNames cls = none) :
    roundedBlock store cls s = s := by
  have hmem := not_mem_keyword_of_contains_false cls h
  have e : (cls = "rounded") = False :=
    eq_false (fun he => hmem (he ▸ (by decide : "rounded" ∈ keywordClasses)))
  simp only [roundedBlock, e, decide_False, Bool.false_eq_true, if_false, hm,
    applyMatched_none]

theorem shadowBlock_id (store : TokenStore) (cls : String)
    (s : List (String × JsVal))
    (h : keywordClasses.contains cls = false)
    (hm : matchSuffixIn "shadow-" shadowNames cls = none) :
    shadowBlock store cls s = s := by
  have hmem := not_mem_keyword_of_contains_false cls h
  have e : (cls = "shadow") = False :=
    eq_false (fun he => hmem (he ▸ (by decide : "shadow" ∈ keywordClasses)))
  simp only [shadowBlock, e, decide_False, Bool.false_eq_true, if_false, hm,
    applyMatched_none]

theorem applyClass3_unmatched (store : TokenStore)
    (styles : List (String × JsVal)) (cls : String)
    (h : matchesRule3 cls = false) : applyClass3 store styles cls = styles := by
  simp only [matchesRule3, Bool.or_eq_false_iff] at h
  obtain ⟨⟨⟨⟨⟨⟨⟨⟨⟨⟨⟨⟨h1, h2⟩, h3⟩, h4⟩, h5⟩, h6⟩, h7⟩, h8⟩, h9⟩, h10⟩, h11⟩, h12⟩, h13⟩ := h
  simp only [applyClass3, spacingBlockNum,
    eq_none_of_isSome_false _ h1, eq_none_of_isSome_false _ h2,
    eq_none_of_isSome_false _ h3, eq_none_of_isSome_false _ h4,
    eq_none_of_isSome_false _ h5, eq_none_of_isSome_false _ h8,
    eq_none_of_isSome_false _ h9, eq_none_of_isSome_false _ h10,
    eq_none_of_isSome_false _ h11, applyMatched_none,
    keywordBlocks_id cls _ h13, lateKeywordBlocks_id cls _ h13,
    trailingBlocks_id cls _ h13 (eq_none_of_isSome_false _ h12),
    roundedBlock_id store cls _ h13 (eq_none_of_isSome_false _ h6),
    shadowBlock_id store cls _ h13 (eq_none_of_isSome_false _ h7),
    applyIf]
  have e : (cls = "border") = False :=
    eq_false (fun he => (not_mem_keyword_of_contains_false cls h13)
      (he ▸ (by decide : "border" ∈ keywordClasses)))
  simp only [e, decide_False, Bool.false_eq_true, if_false]


theorem applyClass7_unmatched (store : TokenStore)
    (styles : List (String × JsVal)) (cls : String)
    (h : matchesRule7 cls = false) : applyClass7 store styles cls = styles := by
  simp only [matchesRule7, Bool.or_eq_false_iff] at h
  obtain ⟨⟨⟨⟨⟨⟨⟨⟨⟨⟨⟨⟨⟨⟨⟨h1, h2⟩, h3⟩, h4⟩, h5⟩, h6⟩, h7⟩, h8⟩, h9⟩, h10⟩,
    h11⟩, h12⟩, h13⟩, h14⟩, h15⟩, h16⟩ := h
  simp only [applyClass7, spacingBlockRaw,
    eq_none_of_isSome_false _ h1, eq_none_of_isSome_false _ h2,
    eq_none_of_isSome_false _ h3, eq_none_of_isSome_false _ h4,
    eq_none_of_isSome_false _ h5, eq_none_of_isSome_false _ h6,
    eq_none_of_isSome_false _ h7, eq_none_of_isSome_false _ h10,
    eq_none_of_isSome_false _ h11, eq_none_of_isSome_false _ h12,
    eq_none_of_isSome_false _ h13, eq_none_of_isSome_false _ h14,
    applyMatched_none,
    keywordBlocks_id cls _ h16, lateKeywordBlocks_id cls _ h16,
    trailingBlocks_id cls _ h16 (eq_none_of_isSome_false _ h15),
    roundedBlock_id store cls _ h16 (eq_none_of_isSome_false _ h8),
    shadowBlock_id store cls _ h16 (eq_none_of_isSome_false _ h9)]
  have e : (cls = "border") = False :=
    eq_false (fun he => (not_mem_keyword_of_contains_false cls h16)
      (he ▸ (by decide : "border" ∈ keywordClasses)))
  simp only [applyIf, e, decide_False, Bool.false_eq_true, if_false]

theorem splitCharsBy_ne_nil (p : Char → Bool) (l : List Char) :
    splitCharsBy p l ≠ [] := by
  cases l with
  | nil => simp [splitCharsBy]
  | cons c rest =>
      unfold splitCharsBy
      by_cases hc : p c
      · simp [hc]
      · simp only [hc, if_false, Bool.false_eq_true]
        cases splitCharsBy p rest <;> simp

theorem splitCharsBy_cons (p : Char → Bool) (c : Char) (rest : List Char) :
    splitCharsBy p (c :: rest) =
      if p c then [] :: splitCharsBy p rest
      else
        match splitCharsBy p rest with
        | [] => [[c]]
        | g :: gs => (c :: g) :: gs := rfl

theorem splitCharsBy_append (p : Char → Bool) (xs ys : List Char) (sep : Char)
    (hsep : p sep = true) :
    splitCharsBy p (xs ++ sep :: ys) =
      splitCharsBy p xs ++ splitCharsBy p ys := by
  induction xs with
  | nil => simp [splitCharsBy, hsep]
  | cons c rest ih =>
      rw [List.cons_append, splitCharsBy_cons, splitCharsBy_cons]
      by_cases hc : p c
      · simp [hc, ih]
      · simp only [hc, if_false, Bool.false_eq_true]
        rw [ih]
        obtain ⟨g, gs, hgs⟩ :=
          List.exists_cons_of_ne_nil (splitCharsBy_ne_nil p rest)
        rw [hgs]
        rfl

theorem tokenize_append_sep (s t : String) :
    tokenize (s ++ " " ++ t) = tokenize s ++ tokenize t := by
  unfold tokenize
  have hdata : (s ++ " " ++ t).data = s.data ++ ' ' :: t.data := by
    rw [String.data_append, String.data_append, List.append_assoc]
    rfl
  rw [hdata, splitCharsBy_append _ _ _ ' ' (by decide), List.map_append,
    List.filter_append]

/-- C9: the class parsers tolerate unknown tokens. For either parser
revision, appending a whitespace-separated token that matches none of the
pattern rules to any class string leaves the parsed style map unchanged,
and in particular parsing p-4 not-a-real-class equals parsing p-4 for
every token store. -/
theorem claim_C9 :
    (∀ (store : TokenStore) (s t : String),
      matchesRule3 t = false → tokenize t = [t] →
      createStyleObject3 store (s ++ " " ++ t) = createStyleObject3 store s) ∧
    (∀ (store : TokenStore) (s t : String),
      matchesRule7 t = false → tokenize t = [t] →
      createStyleObject7 store (s ++ " " ++ t) = createStyleObject7 store s) ∧
    (∀ store : TokenStore,
      createStyleObject3 store "p-4 not-a-real-class" =
        createStyleObject3 store "p-4") ∧
    (∀ store : TokenStore,
      createStyleObject7 store "p-4 not-a-real-class" =
        createStyleObject7 store "p-4") := by
  have g3 : ∀ (store : TokenStore) (s t : String),
      matchesRule3 t = false → tokenize t = [t] →
      createStyleObject3 store (s ++ " " ++ t) = createStyleObject3 store s := by
    intro store s t hm ht
    unfold createStyleObject3
    rw [tokenize_append_sep, ht, List.foldl_append, List.foldl_cons,
      List.foldl_nil, applyClass3_unmatched store _ t hm]
  have g7 : ∀ (store : TokenStore) (s t : String),
      matchesRule7 t = false → tokenize t = [t] →
      createStyleObject7 store (s ++ " " ++ t) = createStyleObject7 store s := by
    intro store s t hm ht
    unfold createStyleObject7
    rw [tokenize_append_sep, ht, List.foldl_append, List.foldl_cons,
      List.foldl_nil, applyClass7_unmatched store _ t hm]
  refine ⟨g3, g7, ?_, ?_⟩
  · intro store
    rw [show ("p-4 not-a-real-class" : String) =
      "p-4" ++ " " ++ "not-a-real-class" from rfl]
    exact g3 store "p-4" "not-a-real-class" (by decide) (by decide)
  · intro store
    rw [show ("p-4 not-a-real-class" : String) =
      "p-4" ++ " " ++ "not-a-real-class" from rfl]
    exact g7 store "p-4" "not-a-real-class" (by decide) (by decide)

/-- Witness for C9: the unknown token appended to p-4 over the empty token
store. -/
theorem claim_C9_witness :
    ((matchesRule3 "not-a-real-class" = false ∧
      tokenize "not-a-real-class" = ["not-a-real-class"]) ∧
     createStyleObject3 {} ("p-4" ++ " " ++ "not-a-real-class") =
       createStyleObject3 {} "p-4") :=
  ⟨⟨by decide, by decide⟩,
   claim_C9.1 {} "p-4" "not-a-real-class" (by decide) (by decide)⟩
